import Mathlib

/-!
Verification of the ping-pong league application (`app.py`) against its
natural-language specification.  The SQLAlchemy rows become Lean
structures, the whole database becomes one `DBState` record, and every
Flask handler becomes a pure function `... → DBState → DBState × Resp`.
Machine dates are abstracted to day numbers (`Nat`); `random.shuffle`
appears as quantification over the shuffled order.
-/

set_option maxHeartbeats 1000000

namespace Pong

/-- Row of table `players`. -/
structure Player where
  id : Int
  name : String
  elo : Int := 1200
  wins : Int := 0
  losses : Int := 0
deriving DecidableEq, Repr

/-- Row of table `matches` (a league match).  The `date` timestamp column
is not modelled: no claim depends on it. -/
structure Match where
  id : Int
  winner_id : Int
  loser_id : Int
  score : String
  winner_pre_elo : Int
  loser_pre_elo : Int
  winner_post_elo : Int
  loser_post_elo : Int
deriving DecidableEq, Repr

/-- The singleton configuration row (table `league_config`, id 1).
`tournament_state`: 0 none, 1 signup, 2 active, 3 concluded. -/
structure LeagueConfig where
  admin_note : String := ""
  tournament_state : Nat := 0
deriving DecidableEq, Repr

/-- Row of table `tournaments`; dates are day numbers. -/
structure Tournament where
  id : Int
  start_date : Nat := 0
  end_date : Option Nat := none
  winner_id : Option Int := none
  final_rankings : String := "\x7b\x7d"
deriving DecidableEq, Repr

/-- Row of table `tournament_matches`.  `match_date` is `none` until the
application code itself writes a date into the row (the column default is
not modelled; only `log_tournament_match` writes this field). -/
structure TournamentMatch where
  id : Int := 0
  tournament_id : Option Int := none
  round_num : Nat
  match_num : Nat
  player1_id : Int
  player2_id : Option Int := none
  winner_id : Option Int := none
  score : Option String := none
  match_date : Option Nat := none
  best_of_games : Nat := 3
deriving DecidableEq, Repr, Inhabited

/-- Halving loop behind `int.bit_length`; the first argument is fuel
(any value `≥ n` gives the true bit length) so that the function is
structurally recursive and evaluates by kernel reduction. -/
def bitLenGo : Nat → Nat → Nat
  | _, 0 => 0
  | 0, _ + 1 => 0
  | fuel + 1, n + 1 => bitLenGo fuel ((n + 1) / 2) + 1

/-- Python's `n.bit_length()` for a non-negative `n`: the number of
binary digits of `n`, i.e. the least `k` with `n < 2 ^ k`. -/
def bit_length (n : Nat) : Nat := bitLenGo n n

/-- `get_next_power_of_two` (app.py lines 100-103).  The handlers only
call this on a list length, so the argument is `Nat` and the `n <= 0`
guard becomes `n = 0`. -/
def get_next_power_of_two (n : Nat) : Nat :=
  if n = 0 then 0 else 2 ^ bit_length (n - 1)

/-- A completed bye slot, exactly as constructed at app.py lines 128-136
and 503-512 (winner preset to the lone player, score "BYE"). -/
def byeSlot (tid : Option Int) (round mnum : Nat) (p : Int) : TournamentMatch :=
  { tournament_id := tid, round_num := round, match_num := mnum,
    player1_id := p, player2_id := none, winner_id := some p,
    score := some "BYE", best_of_games := 3 }

/-- An undecided two-player slot, as constructed at app.py lines 143-149,
156-162 and 489-497. -/
def pairSlot (tid : Option Int) (round mnum : Nat) (p1 p2 : Int) (bo : Nat) :
    TournamentMatch :=
  { tournament_id := tid, round_num := round, match_num := mnum,
    player1_id := p1, player2_id := some p2, winner_id := none,
    score := none, best_of_games := bo }

/-- The `enumerate` loop over the bye players (app.py lines 127-136):
one bye slot per player, match numbers counting up from `mnum`. -/
def byesOff (tid : Option Int) (round : Nat) : Nat → List Int → List TournamentMatch
  | _, [] => []
  | mnum, p :: rest => byeSlot tid round mnum p :: byesOff tid round (mnum + 1) rest

/-- The consecutive-pairing loop
`for i in range(len(lst) // 2): lst[2*i] vs lst[2*i+1]`
(app.py lines 139-149, 153-162 and 481-497): successive elements are
paired, match numbers count up from `mnum`, and a trailing unpaired
element is ignored exactly as `range(len(lst) // 2)` ignores it. -/
def pairOff (tid : Option Int) (round bo : Nat) : Nat → List Int → List TournamentMatch
  | mnum, p1 :: p2 :: rest => pairSlot tid round mnum p1 p2 bo :: pairOff tid round bo (mnum + 1) rest
  | _, _ => []

/-- `generate_bracket` (app.py lines 105-164) applied to the
already-shuffled list of player ids; `random.shuffle` is modelled by
quantifying over the input order.  The caller stamps the tournament id
onto the returned rows, so it is `none` here. -/
def generate_bracket (players : List Int) : List TournamentMatch :=
  let N := players.length
  let bracket_size := get_next_power_of_two N
  let byes := bracket_size - N
  if 0 < byes then
    byesOff none 1 1 (players.take byes) ++ pairOff none 1 3 (byes + 1) (players.drop byes)
  else
    pairOff none 1 3 1 players

/-- The players occupying a list of slots, in slot order (player1 of each
slot, then its player2 when present). -/
def slotPlayers (ms : List TournamentMatch) : List Int :=
  ms.flatMap fun m => m.player1_id :: m.player2_id.toList

/-- Lines 470-513 of `admin_start_next_round`: the slots of round
`next_round`, built from the match-number-ordered winner ids of the
round before it.  `num_matches = len(winners) // 2` consecutive pairs;
if the winner count is odd the last winner gets a bye slot numbered
`num_matches + 1`.  The best-of-5 test is the source's
`num_matches + (1 if last_winner_gets_bye else 0) == 1 and next_round > 1`,
hoisted out of the pairing loop (it does not depend on the loop index). -/
def nextRoundSlots (tid : Int) (next_round : Nat) (winners_ids : List Int) :
    List TournamentMatch :=
  let num_matches := winners_ids.length / 2
  let last_winner_gets_bye := winners_ids.length % 2 ≠ 0
  let is_final_round :=
    num_matches + (if last_winner_gets_bye then 1 else 0) = 1 ∧ 1 < next_round
  let best_of := if is_final_round then 5 else 3
  pairOff (some tid) next_round best_of 1 winners_ids ++
    (if last_winner_gets_bye then
      [byeSlot (some tid) next_round (num_matches + 1) (winners_ids.getLast?.getD 0)]
    else [])

/-- `calculate_elo` (app.py lines 167-176), with Python's float
arithmetic idealised as exact real arithmetic and `int(round(x))` as
`round : ℝ → ℤ`.  The bound proved about it uses only
`|round x - x| ≤ 1/2`, which holds for any nearest-integer tie-break,
so the idealisation of Python's round-half-to-even is harmless.  The
definition is noncomputable exactly because the idealisation lives in
`ℝ`; the claims about it are stated without hypotheses. -/
noncomputable def calculate_elo (winner_elo loser_elo : Int) : Int × Int :=
  let K : ℝ := 32
  let expected_winner : ℝ :=
    1 / (1 + (10 : ℝ) ^ (((loser_elo : ℝ) - (winner_elo : ℝ)) / 400))
  let expected_loser : ℝ :=
    1 / (1 + (10 : ℝ) ^ (((winner_elo : ℝ) - (loser_elo : ℝ)) / 400))
  let new_winner_elo_float : ℝ := (winner_elo : ℝ) + K * (1 - expected_winner)
  let new_loser_elo_float : ℝ := (loser_elo : ℝ) + K * (0 - expected_loser)
  (round new_winner_elo_float, round new_loser_elo_float)

/-- Abstract HTTP reply: a redirect (success, or one of the documented
silent no-ops) or an error page with its status code and message. -/
inductive Resp where
  | redirect
  | err (code : Nat) (msg : String)
deriving DecidableEq, Repr

/-- The whole persistent store.  The `next_*_id` fields model the
auto-increment primary-key counters of the four tables whose rows the
handlers fetch by id or create. -/
structure DBState where
  players : List Player := []
  «matches» : List Match := []
  config : LeagueConfig := {}
  tournaments : List Tournament := []
  signups : List Int := []
  tmatches : List TournamentMatch := []
  next_player_id : Int := 1
  next_match_id : Int := 1
  next_tournament_id : Int := 1
  next_tmatch_id : Int := 1
deriving DecidableEq, Repr

/-- Update the first list element satisfying `p`: a row fetched by
`db.session.get` and then mutated, under primary-key uniqueness. -/
def updateFirst (p : α → Bool) (f : α → α) : List α → List α
  | [] => []
  | x :: xs => if p x then f x :: xs else x :: updateFirst p f xs

/-- Delete the first list element satisfying `p`: `db.session.delete` of
a row fetched by primary key. -/
def removeFirst (p : α → Bool) : List α → List α
  | [] => []
  | x :: xs => if p x then xs else x :: removeFirst p xs

/-- Mutation of the current tournament, i.e. the
`Tournament.query.order_by(id.desc()).first()` row: the most recently
inserted element of the list. -/
def updateLast (f : Tournament → Tournament) : List Tournament → List Tournament
  | [] => []
  | [t] => [f t]
  | t :: ts => t :: updateLast f ts

/-- Primary keys handed out by the database to freshly inserted
tournament-match rows, in insertion order. -/
def assignIds (n : Int) : List TournamentMatch → List TournamentMatch
  | [] => []
  | m :: ms => { m with id := n } :: assignIds (n + 1) ms

/-- The ids of the players, in row order. -/
def playerIds (s : DBState) : List Int := s.players.map fun p => p.id

/-- `add_player` (app.py lines 254-261); `if name:` is Python
truthiness, i.e. the empty string is rejected silently. -/
def add_player (name : String) (s : DBState) : DBState × Resp :=
  if name = "" then (s, .redirect)
  else
    ({ s with
        players := s.players ++ [{ id := s.next_player_id, name := name }],
        next_player_id := s.next_player_id + 1 }, .redirect)

/-- `log_match` (app.py lines 263-301).  The rating update
`calculate_elo` is passed as a parameter: the reversal claims hold for
every rating function, and the float arithmetic of the concrete
`calculate_elo` is modelled separately over the reals (see
`calculate_elo` below). -/
def log_match (celo : Int → Int → Int × Int) (winner_id loser_id : Int) (score : String)
    (s : DBState) : DBState × Resp :=
  if winner_id = loser_id then (s, .redirect)
  else
    match s.players.find? (fun p => p.id == winner_id),
          s.players.find? (fun p => p.id == loser_id) with
    | some winner, some loser =>
      let winner_pre_elo := winner.elo
      let loser_pre_elo := loser.elo
      let res := celo winner_pre_elo loser_pre_elo
      ({ s with
          players :=
            updateFirst (fun p => p.id == loser_id)
              (fun p => { p with elo := res.2, losses := p.losses + 1 })
              (updateFirst (fun p => p.id == winner_id)
                (fun p => { p with elo := res.1, wins := p.wins + 1 })
                s.players),
          «matches» := s.matches ++
            [{ id := s.next_match_id, winner_id := winner_id, loser_id := loser_id,
               score := score, winner_pre_elo := winner_pre_elo,
               loser_pre_elo := loser_pre_elo, winner_post_elo := res.1,
               loser_post_elo := res.2 }],
          next_match_id := s.next_match_id + 1 }, .redirect)
    | _, _ => (s, .err 404 "One or both players not found.")

/-- `remove_player` (app.py lines 314-323), after a successful password
check: deletes every league match won or lost by the player, then the
player row itself; nothing else is touched. -/
def remove_player (player_id : Int) (s : DBState) : DBState × Resp :=
  match s.players.find? (fun p => p.id == player_id) with
  | some _ =>
      ({ s with
          «matches» := s.matches.filter
            (fun m => !(m.winner_id == player_id || m.loser_id == player_id)),
          players := removeFirst (fun p => p.id == player_id) s.players }, .redirect)
  | none => (s, .redirect)

/-- `remove_match` (app.py lines 325-342), after a successful password
check: subtracts the stored pre/post Elo deltas and one win/loss from the
two players (when both still exist), then deletes the match row. -/
def remove_match (match_id : Int) (s : DBState) : DBState × Resp :=
  match s.matches.find? (fun m => m.id == match_id) with
  | none => (s, .redirect)
  | some m =>
      let winner_elo_change := m.winner_post_elo - m.winner_pre_elo
      let loser_elo_change := m.loser_post_elo - m.loser_pre_elo
      let players' :=
        match s.players.find? (fun p => p.id == m.winner_id),
              s.players.find? (fun p => p.id == m.loser_id) with
        | some _, some _ =>
            updateFirst (fun p => p.id == m.loser_id)
              (fun p => { p with elo := p.elo - loser_elo_change, losses := p.losses - 1 })
              (updateFirst (fun p => p.id == m.winner_id)
                (fun p => { p with elo := p.elo - winner_elo_change, wins := p.wins - 1 })
                s.players)
        | _, _ => s.players
      ({ s with
          players := players',
          «matches» := removeFirst (fun x => x.id == match_id) s.matches }, .redirect)

/-- `admin_start_signup` (app.py lines 357-375), after a successful
password check.  Note the silent else branch: from states 1 and 2 the
handler just redirects without touching anything. -/
def admin_start_signup (today : Nat) (s : DBState) : DBState × Resp :=
  if s.config.tournament_state = 0 ∨ s.config.tournament_state = 3 then
    ({ s with
        signups := [],
        tmatches := [],
        tournaments := s.tournaments ++ [{ id := s.next_tournament_id, start_date := today }],
        next_tournament_id := s.next_tournament_id + 1,
        config := { s.config with tournament_state := 1 } }, .redirect)
  else (s, .redirect)

/-- `signup_for_tournament` (app.py lines 519-541): outside the signup
phase an error; an existing signup is a silent no-op. -/
def signup_for_tournament (player_id : Int) (s : DBState) : DBState × Resp :=
  if s.config.tournament_state ≠ 1 then (s, .err 400 "Signup is not currently active.")
  else if player_id ∈ s.signups then (s, .redirect)
  else ({ s with signups := s.signups ++ [player_id] }, .redirect)

/-- `admin_start_tournament` (app.py lines 377-403), after a successful
password check.  `shuffled` is the signup list in post-`random.shuffle`
order (constrained to a permutation of the signups by the step
relation `Step`). -/
def admin_start_tournament (shuffled : List Int) (s : DBState) : DBState × Resp :=
  if s.config.tournament_state ≠ 1 then (s, .err 400 "Signup is not currently active.")
  else if s.signups.length < 2 then
    (s, .err 400 "Need at least 2 players to start a tournament.")
  else
    match s.tournaments.getLast? with
    | none => (s, .err 404 "No active tournament structure found.")
    | some t =>
      let initial_matches :=
        (generate_bracket shuffled).map fun m => { m with tournament_id := some t.id }
      ({ s with
          tmatches := s.tmatches ++ assignIds s.next_tmatch_id initial_matches,
          next_tmatch_id := s.next_tmatch_id + initial_matches.length,
          config := { s.config with tournament_state := 2 } }, .redirect)

/-- `admin_end_tournament` (app.py lines 405-414), after a successful
password check: unconditionally writes state 0 (the comment in the
source says "Concluded" but the value written is 0 = no tournament). -/
def admin_end_tournament (s : DBState) : DBState × Resp :=
  ({ s with config := { s.config with tournament_state := 0 } }, .redirect)

/-- `db.func.max(round_num)` over a set of rows. -/
def maxRound (tms : List TournamentMatch) : Nat :=
  tms.foldr (fun m acc => max m.round_num acc) 0

/-- Insertion step of `sortByNum`. -/
def insertByNum (m : TournamentMatch) : List TournamentMatch → List TournamentMatch
  | [] => [m]
  | x :: xs => if m.match_num ≤ x.match_num then m :: x :: xs else x :: insertByNum m xs

/-- The `ORDER BY match_num` of the winner query (app.py line 455). -/
def sortByNum : List TournamentMatch → List TournamentMatch
  | [] => []
  | x :: xs => insertByNum x (sortByNum xs)

/-- The tournament-match rows of one tournament, in row order. -/
def tmsOf (s : DBState) (tid : Int) : List TournamentMatch :=
  s.tmatches.filter fun m => m.tournament_id == some tid

/-- The incomplete-match query of `admin_start_next_round` (app.py lines
439-444): undecided rows of round `cr` that are not byes. -/
def incompleteOf (tms : List TournamentMatch) (cr : Nat) : List TournamentMatch :=
  tms.filter fun m => m.round_num == cr && m.winner_id == none && m.player2_id != none

/-- The winner ids of round `cr` in match-number order (the query of
app.py lines 451-458). -/
def winnersOf (tms : List TournamentMatch) (cr : Nat) : List Int :=
  (sortByNum (tms.filter fun m => m.round_num == cr && m.winner_id != none)).filterMap
    fun m => m.winner_id

/-- `admin_start_next_round` (app.py lines 416-517), after a successful
password check: advance the current tournament's highest round, conclude
when at most one winner remains, silently redirect when the round is not
ready. -/
def admin_start_next_round (today : Nat) (s : DBState) : DBState × Resp :=
  if s.config.tournament_state ≠ 2 then (s, .err 400 "Tournament is not currently active.")
  else
    match s.tournaments.getLast? with
    | none => (s, .err 404 "No active tournament found.")
    | some current_tournament =>
      let tms := tmsOf s current_tournament.id
      if tms = [] then (s, .err 404 "No matches generated for this tournament.")
      else
        let current_round := maxRound tms
        if incompleteOf tms current_round ≠ [] then (s, .redirect)
        else
          let winners_ids := winnersOf tms current_round
          if winners_ids.length ≤ 1 then
            ({ s with
                tournaments := updateLast
                  (fun t => { t with winner_id := winners_ids.head?, end_date := some today })
                  s.tournaments,
                config := { s.config with tournament_state := 3 } }, .redirect)
          else
            let new_ms := nextRoundSlots current_tournament.id (current_round + 1) winners_ids
            ({ s with
                tmatches := s.tmatches ++ assignIds s.next_tmatch_id new_ms,
                next_tmatch_id := s.next_tmatch_id + new_ms.length }, .redirect)

/-- `log_tournament_match` (app.py lines 544-574).  Note: no tournament
phase is checked anywhere in the handler. -/
def log_tournament_match (tmatch_id : Int) (winner_id : Int) (score : String) (today : Nat)
    (s : DBState) : DBState × Resp :=
  match s.tmatches.find? (fun m => m.id == tmatch_id) with
  | none => (s, .err 404 "Match not found or already completed.")
  | some tmatch =>
    if tmatch.winner_id ≠ none then (s, .err 404 "Match not found or already completed.")
    else
      let written : DBState × Resp :=
        ({ s with
            tmatches := updateFirst (fun m => m.id == tmatch_id)
              (fun m => { m with winner_id := some winner_id, score := some score,
                                 match_date := some today })
              s.tmatches }, .redirect)
      if winner_id = tmatch.player1_id then
        if tmatch.player2_id = none then (s, .err 400 "Cannot log a winner for a BYE match.")
        else written
      else if some winner_id = tmatch.player2_id then written
      else (s, .err 400 "Invalid winner submitted.")

/-- The form data of one `log_match` request: winner, loser, score. -/
structure LogOp where
  winner : Int
  loser : Int
  score : String
deriving DecidableEq, Repr

/-- A sequence of `log_match` requests applied in order. -/
def applyLogs (celo : Int → Int → Int × Int) : List LogOp → DBState → DBState
  | [], s => s
  | op :: ops, s => applyLogs celo ops (log_match celo op.winner op.loser op.score s).1

/-- A sequence of `remove_match` requests applied in order. -/
def removeMatches : List Int → DBState → DBState
  | [], s => s
  | i :: ids, s => removeMatches ids (remove_match i s).1

/-- The primary keys the next `k` logged matches will receive. -/
def newMatchIds (s : DBState) (k : Nat) : List Int :=
  (List.range k).map fun i : Nat => s.next_match_id + (i : Int)

/-- Every request in the batch names two distinct, existing players
(`log_match` rejects the rest without touching the database). -/
def ValidOps (ops : List LogOp) (s : DBState) : Prop :=
  ∀ op ∈ ops, op.winner ≠ op.loser ∧ op.winner ∈ playerIds s ∧ op.loser ∈ playerIds s

/-- Primary-key sanity: every stored match id is below the counter.
Every state the application builds satisfies this. -/
def MatchIdsBelow (s : DBState) : Prop := ∀ m ∈ s.matches, m.id < s.next_match_id

/-- One request handled by the application, with the admin password
check already passed where one is required (the password comparison is
external to every claim).  `random.shuffle` inside
`admin_start_tournament` appears as an arbitrary permutation of the
signup list.  League-match logging and removal are omitted: they touch
only `players`/`matches`, never the tournament tables, so every state
reachable here is reachable in the application. -/
inductive Step : DBState → DBState → Prop
  | add_player (name : String) (s : DBState) : Step s (add_player name s).1
  | start_signup (today : Nat) (s : DBState) : Step s (admin_start_signup today s).1
  | signup (pid : Int) (s : DBState) : Step s (signup_for_tournament pid s).1
  | start_tournament (shuffled : List Int) (s : DBState) (h : shuffled.Perm s.signups) :
      Step s (admin_start_tournament shuffled s).1
  | end_tournament (s : DBState) : Step s (admin_end_tournament s).1
  | next_round (today : Nat) (s : DBState) : Step s (admin_start_next_round today s).1
  | log_tmatch (id w : Int) (sc : String) (today : Nat) (s : DBState) :
      Step s (log_tournament_match id w sc today s).1

/-- The freshly initialised database: empty tables and the singleton
config row that `init_db` creates with `tournament_state = 0`. -/
def initState : DBState := {}

/-- States reachable from the fresh database by application requests. -/
def Reachable (s : DBState) : Prop := Relation.ReflTransGen Step initState s

/-! Concrete states used by counterexamples and witnesses. -/

/-- Two players added to the fresh database. -/
def traceS1 : DBState := (add_player "Ada" initState).1

def traceS2 : DBState := (add_player "Ben" traceS1).1

/-- Signup opened on day 0. -/
def traceS3 : DBState := (admin_start_signup 0 traceS2).1

def traceS4 : DBState := (signup_for_tournament 1 traceS3).1

def traceS5 : DBState := (signup_for_tournament 2 traceS4).1

/-- Tournament started; round 1 holds the single real match 1 vs 2. -/
def traceS6 : DBState := (admin_start_tournament [1, 2] traceS5).1

/-- The admin override `admin_end_tournament` fired while the round-1
match is still undecided: the phase is back to 0 but the undecided
tournament-match row survives. -/
def traceS7 : DBState := (admin_end_tournament traceS6).1

/-- An active tournament whose round 1 has three decided matches, so
three winners advance: one paired match plus one bye in round 2. -/
def threeWinnerState : DBState :=
  { config := { tournament_state := 2 },
    tournaments := [{ id := 1 }],
    tmatches := [
      { id := 1, tournament_id := some 1, round_num := 1, match_num := 1,
        player1_id := 1, player2_id := some 2, winner_id := some 1, score := some "2-0" },
      { id := 2, tournament_id := some 1, round_num := 1, match_num := 2,
        player1_id := 3, player2_id := some 4, winner_id := some 3, score := some "2-1" },
      { id := 3, tournament_id := some 1, round_num := 1, match_num := 3,
        player1_id := 5, player2_id := some 6, winner_id := some 5, score := some "2-0" }],
    next_tmatch_id := 4 }

/-- An active tournament whose current round consists of a single
undecided bye-shaped row (`player2` and `winner` both null): the round
has no incomplete non-bye match and zero winners. -/
def zeroWinnerState : DBState :=
  { config := { tournament_state := 2 },
    tournaments := [{ id := 1 }],
    tmatches := [
      { id := 1, tournament_id := some 1, round_num := 1, match_num := 1,
        player1_id := 1, player2_id := none, winner_id := none }],
    next_tmatch_id := 2 }

/-- A database sitting in the signup phase with no other content. -/
def signupPhaseState : DBState := { config := { tournament_state := 1 } }

/-- Three players and two logged league matches: 1 beat 2, then 3
beat 1.  Removing player 2 must delete only the first match and leave
players 1 and 3 untouched. -/
def leagueState : DBState :=
  { players := [
      { id := 1, name := "Ada", elo := 1215, wins := 1, losses := 1 },
      { id := 2, name := "Ben", elo := 1184, wins := 0, losses := 1 },
      { id := 3, name := "Cy", elo := 1217, wins := 1, losses := 0 }],
    «matches» := [
      { id := 1, winner_id := 1, loser_id := 2, score := "11-9",
        winner_pre_elo := 1200, loser_pre_elo := 1200,
        winner_post_elo := 1216, loser_post_elo := 1184 },
      { id := 2, winner_id := 3, loser_id := 1, score := "11-7",
        winner_pre_elo := 1200, loser_pre_elo := 1216,
        winner_post_elo := 1217, loser_post_elo := 1215 }],
    next_player_id := 4, next_match_id := 3 }

/-- A database holding one already-decided tournament match. -/
def decidedMatchState : DBState :=
  { config := { tournament_state := 2 },
    tournaments := [{ id := 1 }],
    tmatches := [
      { id := 1, tournament_id := some 1, round_num := 1, match_num := 1,
        player1_id := 1, player2_id := some 2, winner_id := some 1, score := some "2-0" }],
    next_tmatch_id := 2 }

end Pong

namespace Pong

theorem slotPlayers_nil : slotPlayers [] = [] := rfl

theorem slotPlayers_cons (m : TournamentMatch) (ms : List TournamentMatch) :
    slotPlayers (m :: ms) = (m.player1_id :: m.player2_id.toList) ++ slotPlayers ms := by
  simp [slotPlayers]

theorem slotPlayers_append (l₁ l₂ : List TournamentMatch) :
    slotPlayers (l₁ ++ l₂) = slotPlayers l₁ ++ slotPlayers l₂ := by
  simp [slotPlayers]

theorem byesOff_length (tid : Option Int) (round : Nat) :
    ∀ (mnum : Nat) (l : List Int), (byesOff tid round mnum l).length = l.length
  | _, [] => rfl
  | mnum, _ :: rest => by
    simp only [byesOff, List.length_cons, byesOff_length tid round (mnum + 1) rest]

theorem byesOff_matchNums (tid : Option Int) (round : Nat) :
    ∀ (mnum : Nat) (l : List Int),
      (byesOff tid round mnum l).map (fun m => m.match_num) = List.range' mnum l.length
  | _, [] => rfl
  | mnum, _ :: rest => by
    simp only [byesOff, List.map_cons, List.length_cons, List.range'_succ,
      byesOff_matchNums tid round (mnum + 1) rest, byeSlot]

theorem byesOff_slotPlayers (tid : Option Int) (round : Nat) :
    ∀ (mnum : Nat) (l : List Int), slotPlayers (byesOff tid round mnum l) = l
  | _, [] => rfl
  | mnum, p :: rest => by
    simp only [byesOff, slotPlayers_cons, byesOff_slotPlayers tid round (mnum + 1) rest,
      byeSlot, Option.toList_none, List.cons_append, List.nil_append]

theorem byesOff_mem (tid : Option Int) (round : Nat) :
    ∀ (mnum : Nat) (l : List Int) (m : TournamentMatch), m ∈ byesOff tid round mnum l →
      m.tournament_id = tid ∧ m.round_num = round ∧ m.player2_id = none ∧
      m.winner_id = some m.player1_id ∧ m.score = some "BYE" ∧ m.best_of_games = 3
  | mnum, p :: rest, m, hm => by
    rcases List.mem_cons.mp hm with h | h
    · subst h; exact ⟨rfl, rfl, rfl, rfl, rfl, rfl⟩
    · exact byesOff_mem tid round (mnum + 1) rest m h

theorem pairOff_length (tid : Option Int) (round bo : Nat) :
    ∀ (mnum : Nat) (l : List Int), (pairOff tid round bo mnum l).length = l.length / 2
  | _, [] => rfl
  | _, [_] => by simp [pairOff]
  | mnum, _ :: _ :: rest => by
    simp only [pairOff, List.length_cons, pairOff_length tid round bo (mnum + 1) rest]
    omega

theorem pairOff_matchNums (tid : Option Int) (round bo : Nat) :
    ∀ (mnum : Nat) (l : List Int),
      (pairOff tid round bo mnum l).map (fun m => m.match_num) = List.range' mnum (l.length / 2)
  | _, [] => rfl
  | _, [_] => by simp [pairOff]
  | mnum, _ :: _ :: rest => by
    have h2 : (rest.length + 1 + 1) / 2 = rest.length / 2 + 1 := by omega
    simp only [pairOff, List.map_cons, List.length_cons, h2, List.range'_succ,
      pairOff_matchNums tid round bo (mnum + 1) rest, pairSlot]

theorem pairOff_slotPlayers (tid : Option Int) (round bo : Nat) :
    ∀ (mnum : Nat) (l : List Int),
      slotPlayers (pairOff tid round bo mnum l) = l.take (2 * (l.length / 2))
  | _, [] => rfl
  | _, [_] => by simp [pairOff, slotPlayers]
  | mnum, p1 :: p2 :: rest => by
    have h2 : 2 * ((rest.length + 1 + 1) / 2) = 2 * (rest.length / 2) + 1 + 1 := by omega
    simp only [pairOff, slotPlayers_cons, pairOff_slotPlayers tid round bo (mnum + 1) rest,
      pairSlot, Option.toList_some, List.length_cons, h2, List.take_succ_cons,
      List.cons_append, List.nil_append]

theorem pairOff_mem (tid : Option Int) (round bo : Nat) :
    ∀ (mnum : Nat) (l : List Int) (m : TournamentMatch), m ∈ pairOff tid round bo mnum l →
      m.tournament_id = tid ∧ m.round_num = round ∧ m.player2_id ≠ none ∧
      m.winner_id = none ∧ m.score = none ∧ m.best_of_games = bo
  | mnum, p1 :: p2 :: rest, m, hm => by
    rcases List.mem_cons.mp hm with h | h
    · subst h; exact ⟨rfl, rfl, by simp [pairSlot], rfl, rfl, rfl⟩
    · exact pairOff_mem tid round bo (mnum + 1) rest m h

theorem bitLenGo_le : ∀ (fuel n k : Nat), n ≤ fuel → (bitLenGo fuel n ≤ k ↔ n < 2 ^ k)
  | _, 0, k, _ => by
    simp only [bitLenGo, Nat.zero_le, true_iff]
    exact Nat.pos_pow_of_pos k (by omega)
  | fuel + 1, n + 1, k, h => by
    match k with
    | 0 =>
      simp only [bitLenGo, Nat.pow_zero]
      omega
    | j + 1 =>
      have hrec : (n + 1) / 2 ≤ fuel := by omega
      have ih := bitLenGo_le fuel ((n + 1) / 2) j hrec
      have hdiv : (n + 1) / 2 < 2 ^ j ↔ n + 1 < 2 ^ (j + 1) := by
        rw [Nat.div_lt_iff_lt_mul (by omega : 0 < 2), pow_succ]
      simp only [bitLenGo, Nat.add_le_add_iff_right, ih, hdiv]

/-- `bit_length n ≤ k` iff `n < 2 ^ k`: `bit_length n` is the least `k`
with `n < 2 ^ k`, matching Python's `int.bit_length`. -/
theorem bit_length_le (n k : Nat) : bit_length n ≤ k ↔ n < 2 ^ k :=
  bitLenGo_le n n k le_rfl

theorem lt_two_pow_bit_length (n : Nat) : n < 2 ^ bit_length n :=
  (bit_length_le n (bit_length n)).mp le_rfl

theorem bit_length_eq_zero (n : Nat) : bit_length n = 0 ↔ n = 0 := by
  constructor
  · intro h
    have := (bit_length_le n 0).mp (by omega)
    simpa using this
  · intro h
    subst h
    rfl

/-- `get_next_power_of_two n` is at least `n`. -/
theorem le_get_next_power_of_two (n : Nat) : n ≤ get_next_power_of_two n := by
  unfold get_next_power_of_two
  by_cases h : n = 0
  · simp [h]
  · rw [if_neg h]
    have := lt_two_pow_bit_length (n - 1)
    omega

/-- For `2 ≤ n` the next power of two is at most `2 * (n - 1)`. -/
theorem get_next_power_of_two_le (n : Nat) (h2 : 2 ≤ n) :
    get_next_power_of_two n ≤ 2 * (n - 1) := by
  unfold get_next_power_of_two
  rw [if_neg (by omega)]
  have hsz : bit_length (n - 1) ≠ 0 := by
    simp only [ne_eq, bit_length_eq_zero]; omega
  have hle : 2 ^ (bit_length (n - 1) - 1) ≤ n - 1 := by
    by_contra hlt
    have := (bit_length_le (n - 1) (bit_length (n - 1) - 1)).mpr (by omega)
    omega
  calc 2 ^ bit_length (n - 1) = 2 * 2 ^ (bit_length (n - 1) - 1) := by
        rw [← pow_succ']
        congr 1
        omega
    _ ≤ 2 * (n - 1) := by omega

/-- For `2 ≤ n` the next power of two is even. -/
theorem get_next_power_of_two_even (n : Nat) (h2 : 2 ≤ n) :
    2 ∣ get_next_power_of_two n := by
  unfold get_next_power_of_two
  rw [if_neg (by omega)]
  have hsz : bit_length (n - 1) ≠ 0 := by
    simp only [ne_eq, bit_length_eq_zero]; omega
  exact dvd_pow_self 2 hsz

/-- `get_next_power_of_two n` is the least power of two that is `≥ n`. -/
theorem get_next_power_of_two_min (n j : Nat) (hj : n ≤ 2 ^ j) :
    get_next_power_of_two n ≤ 2 ^ j := by
  unfold get_next_power_of_two
  by_cases h : n = 0
  · simp [h]
  · rw [if_neg h]
    exact Nat.pow_le_pow_right (by omega) ((bit_length_le (n - 1) j).mpr (by omega))

theorem byesOff_filter_bye (tid : Option Int) (round : Nat) :
    ∀ (mnum : Nat) (l : List Int),
      (byesOff tid round mnum l).filter (fun m => m.player2_id.isNone) = byesOff tid round mnum l
  | _, [] => rfl
  | mnum, p :: rest => by
    simp only [byesOff, List.filter_cons, byeSlot, Option.isNone_none, if_pos,
      byesOff_filter_bye tid round (mnum + 1) rest]

theorem byesOff_filter_real (tid : Option Int) (round : Nat) :
    ∀ (mnum : Nat) (l : List Int),
      (byesOff tid round mnum l).filter (fun m => m.player2_id.isSome) = []
  | _, [] => rfl
  | mnum, p :: rest => by
    simp only [byesOff, List.filter_cons, byeSlot, Option.isSome_none, if_neg,
      byesOff_filter_real tid round (mnum + 1) rest]
    simp

theorem pairOff_filter_bye (tid : Option Int) (round bo : Nat) :
    ∀ (mnum : Nat) (l : List Int),
      (pairOff tid round bo mnum l).filter (fun m => m.player2_id.isNone) = []
  | _, [] => rfl
  | _, [_] => by simp [pairOff]
  | mnum, _ :: _ :: rest => by
    simp only [pairOff, List.filter_cons, pairSlot, Option.isNone_some,
      pairOff_filter_bye tid round bo (mnum + 1) rest]
    simp

theorem pairOff_filter_real (tid : Option Int) (round bo : Nat) :
    ∀ (mnum : Nat) (l : List Int),
      (pairOff tid round bo mnum l).filter (fun m => m.player2_id.isSome) = pairOff tid round bo mnum l
  | _, [] => rfl
  | _, [_] => by simp [pairOff]
  | mnum, _ :: _ :: rest => by
    simp only [pairOff, List.filter_cons, pairSlot, Option.isSome_some, if_pos,
      pairOff_filter_real tid round bo (mnum + 1) rest]

/-- Both branches of `generate_bracket` collapse to
byes-then-consecutive-pairs on the shuffled list. -/
theorem generate_bracket_eq (players : List Int) :
    generate_bracket players =
      byesOff none 1 1 (players.take (get_next_power_of_two players.length - players.length)) ++
      pairOff none 1 3 ((get_next_power_of_two players.length - players.length) + 1)
        (players.drop (get_next_power_of_two players.length - players.length)) := by
  unfold generate_bracket
  by_cases h : 0 < get_next_power_of_two players.length - players.length
  · simp only [if_pos h]
  · have hb : get_next_power_of_two players.length - players.length = 0 := by omega
    simp [if_neg h, hb, byesOff]

/-- C1.  For every list of `N ≥ 2` players (in post-shuffle order),
`generate_bracket` partitions the players over Round 1: with `B` the
smallest power of two `≥ N` (which `get_next_power_of_two` computes) and
`byes = B - N`, it emits exactly `byes` auto-completed bye slots
(winner = that player, score = "BYE") numbered `1..byes`, followed by
`(N - byes)/2` real matches numbered from `byes + 1`, with
`byes + 2 * (real matches) = N`; the slot occupants read off in order are
exactly the input list, so every player appears in exactly one Round-1
slot. -/
theorem C1_generate_bracket_partition (players : List Int) (h2 : 2 ≤ players.length) :
    players.length ≤ get_next_power_of_two players.length ∧
    (∀ j, players.length ≤ 2 ^ j → get_next_power_of_two players.length ≤ 2 ^ j) ∧
    ((generate_bracket players).filter (fun m => m.player2_id.isNone)).map (fun m => m.match_num)
      = List.range' 1 (get_next_power_of_two players.length - players.length) ∧
    ((generate_bracket players).filter (fun m => m.player2_id.isSome)).map (fun m => m.match_num)
      = List.range' ((get_next_power_of_two players.length - players.length) + 1)
          ((players.length - (get_next_power_of_two players.length - players.length)) / 2) ∧
    (get_next_power_of_two players.length - players.length) +
        2 * ((generate_bracket players).filter (fun m => m.player2_id.isSome)).length
      = players.length ∧
    (∀ m ∈ generate_bracket players, m.round_num = 1 ∧
       (m.player2_id = none → m.winner_id = some m.player1_id ∧ m.score = some "BYE") ∧
       (m.player2_id ≠ none → m.winner_id = none)) ∧
    slotPlayers (generate_bracket players) = players ∧
    (players.Nodup → ∀ p ∈ players, (slotPlayers (generate_bracket players)).count p = 1) := by
  have hle := le_get_next_power_of_two players.length
  have hub := get_next_power_of_two_le players.length h2
  have heven := get_next_power_of_two_even players.length h2
  set N := players.length with hN
  set B := get_next_power_of_two N with hB
  set byes := B - N with hbyes
  have hbN : byes ≤ N := by omega
  have hdvd : 2 ∣ (N - byes) := by omega
  have htk : (players.take byes).length = byes := by
    rw [List.length_take]
    omega
  have hdp : (players.drop byes).length = N - byes := by
    rw [List.length_drop]
  have hgb := generate_bracket_eq players
  rw [← hN, ← hB, ← hbyes] at hgb
  refine ⟨hle, fun j hj => get_next_power_of_two_min N j hj, ?_, ?_, ?_, ?_, ?_, ?_⟩
  · rw [hgb, List.filter_append, byesOff_filter_bye, pairOff_filter_bye, List.append_nil,
      byesOff_matchNums, htk]
  · rw [hgb, List.filter_append, byesOff_filter_real, pairOff_filter_real, List.nil_append,
      pairOff_matchNums, hdp]
  · rw [hgb, List.filter_append, byesOff_filter_real, pairOff_filter_real, List.nil_append,
      pairOff_length, hdp]
    omega
  · intro m hm
    rw [hgb] at hm
    rcases List.mem_append.mp hm with h | h
    · obtain ⟨-, hr, hp2, hw, hs, -⟩ := byesOff_mem none 1 1 (players.take byes) m h
      exact ⟨hr, fun _ => ⟨hw, hs⟩, fun hne => absurd hp2 hne⟩
    · obtain ⟨-, hr, hp2, hw, -, -⟩ := pairOff_mem none 1 3 (byes + 1) (players.drop byes) m h
      exact ⟨hr, fun hcon => absurd hcon hp2, fun _ => hw⟩
  · rw [hgb, slotPlayers_append, byesOff_slotPlayers, pairOff_slotPlayers, hdp]
    have h2N : 2 * ((N - byes) / 2) = N - byes := by omega
    rw [h2N, ← hdp, List.take_length, List.take_append_drop]
  · intro hnd p hp
    have hsp : slotPlayers (generate_bracket players) = players := by
      rw [hgb, slotPlayers_append, byesOff_slotPlayers, pairOff_slotPlayers, hdp]
      have h2N : 2 * ((N - byes) / 2) = N - byes := by omega
      rw [h2N, ← hdp, List.take_length, List.take_append_drop]
    rw [hsp]
    exact List.count_eq_one_of_mem hnd hp

/-- From states 1 and 2, `admin_start_signup` silently redirects and
changes nothing. -/
theorem admin_start_signup_illegal (today : Nat) (s : DBState)
    (h0 : s.config.tournament_state ≠ 0) (h3 : s.config.tournament_state ≠ 3) :
    admin_start_signup today s = (s, .redirect) := by
  unfold admin_start_signup
  rw [if_neg]
  rintro (h | h)
  · exact h0 h
  · exact h3 h

theorem signup_wrong_phase (pid : Int) (s : DBState)
    (h : s.config.tournament_state ≠ 1) :
    signup_for_tournament pid s = (s, .err 400 "Signup is not currently active.") := by
  unfold signup_for_tournament
  rw [if_pos h]

theorem signup_duplicate (pid : Int) (s : DBState)
    (h1 : s.config.tournament_state = 1) (hdup : pid ∈ s.signups) :
    signup_for_tournament pid s = (s, .redirect) := by
  unfold signup_for_tournament
  rw [if_neg (not_not_intro h1), if_pos hdup]

theorem start_tournament_wrong_phase (sh : List Int) (s : DBState)
    (h : s.config.tournament_state ≠ 1) :
    admin_start_tournament sh s = (s, .err 400 "Signup is not currently active.") := by
  unfold admin_start_tournament
  rw [if_pos h]

theorem start_tournament_few_players (sh : List Int) (s : DBState)
    (h1 : s.config.tournament_state = 1) (hfew : s.signups.length < 2) :
    admin_start_tournament sh s
      = (s, .err 400 "Need at least 2 players to start a tournament.") := by
  unfold admin_start_tournament
  rw [if_neg (not_not_intro h1), if_pos hfew]

theorem next_round_wrong_phase (today : Nat) (s : DBState)
    (h : s.config.tournament_state ≠ 2) :
    admin_start_next_round today s = (s, .err 400 "Tournament is not currently active.") := by
  unfold admin_start_next_round
  rw [if_pos h]

/-- The not-ready branch of `admin_start_next_round`: an undecided
non-bye match in the current (highest) round makes the whole handler a
silent no-op: the state comes back unchanged. -/
theorem next_round_not_ready (today : Nat) (s : DBState) (t : Tournament)
    (h2 : s.config.tournament_state = 2) (ht : s.tournaments.getLast? = some t)
    (m : TournamentMatch) (hm : m ∈ tmsOf s t.id)
    (hr : m.round_num = maxRound (tmsOf s t.id))
    (hp2 : m.player2_id ≠ none) (hw : m.winner_id = none) :
    admin_start_next_round today s = (s, .redirect) := by
  unfold admin_start_next_round
  rw [if_neg (not_not_intro h2), ht]
  dsimp only
  have hne : tmsOf s t.id ≠ [] := List.ne_nil_of_mem hm
  rw [if_neg hne]
  have hmem : m ∈ incompleteOf (tmsOf s t.id) (maxRound (tmsOf s t.id)) := by
    apply List.mem_filter.mpr
    refine ⟨hm, ?_⟩
    simp [incompleteOf, hr, hw, hp2]
  rw [if_pos (List.ne_nil_of_mem hmem)]

/-- C3.  If the current (highest-numbered) round of the active
tournament still contains a match with a real opponent
(`player2 ≠ null`) and no winner, `admin_start_next_round` returns the
not-ready redirect and performs no persistence writes at all: the
returned state is the input state, so no row is created, no row or
tournament field is modified, and the phase is unchanged. -/
theorem C3_next_round_not_ready_no_writes (today : Nat) (s : DBState) (t : Tournament)
    (h2 : s.config.tournament_state = 2) (ht : s.tournaments.getLast? = some t)
    (hundecided : ∃ m ∈ tmsOf s t.id, m.round_num = maxRound (tmsOf s t.id) ∧
      m.player2_id ≠ none ∧ m.winner_id = none) :
    admin_start_next_round today s = (s, .redirect) := by
  obtain ⟨m, hm, hr, hp2, hw⟩ := hundecided
  exact next_round_not_ready today s t h2 ht m hm hr hp2 hw

/-- Witness for C3: an active tournament with one decided and one
undecided round-1 match; the handler returns the state untouched. -/
theorem C3_witness :
    let s : DBState :=
      { config := { tournament_state := 2 },
        tournaments := [{ id := 1 }],
        tmatches := [
          { id := 1, tournament_id := some 1, round_num := 1, match_num := 1,
            player1_id := 1, player2_id := some 2, winner_id := some 1 },
          { id := 2, tournament_id := some 1, round_num := 1, match_num := 2,
            player1_id := 3, player2_id := some 4, winner_id := none }],
        next_tmatch_id := 3 }
    admin_start_next_round 11 s = (s, .redirect) := by
  intro s
  apply C3_next_round_not_ready_no_writes 11 s { id := 1 } rfl rfl
  exact ⟨{ id := 2, tournament_id := some 1, round_num := 1, match_num := 2,
           player1_id := 3, player2_id := some 4, winner_id := none },
         by decide, by decide, by decide, rfl⟩

/-- Witness for C1 at the spec's own example, N = 5: bracket size 8,
3 byes (matches 1-3) and one real match (match 4), every player in
exactly one slot. -/
theorem C1_witness :
    2 ≤ ([10, 20, 30, 40, 50] : List Int).length ∧
    slotPlayers (generate_bracket [10, 20, 30, 40, 50]) = [10, 20, 30, 40, 50] ∧
    ((generate_bracket [10, 20, 30, 40, 50]).filter (fun m => m.player2_id.isNone)).map
        (fun m => m.match_num) = List.range' 1 3 ∧
    (get_next_power_of_two 5 - 5) +
        2 * ((generate_bracket [10, 20, 30, 40, 50]).filter (fun m => m.player2_id.isSome)).length
      = 5 := by
  have h := C1_generate_bracket_partition [10, 20, 30, 40, 50] (by decide)
  refine ⟨by decide, h.2.2.2.2.2.2.1, ?_, ?_⟩
  · have h3 := h.2.2.1
    simpa using h3
  · have h5 := h.2.2.2.2.1
    simpa using h5

/-- A missing id and an already-decided match produce the *same* 404
reply in `log_tournament_match`. -/
theorem log_tmatch_missing (tid w : Int) (sc : String) (today : Nat) (s : DBState)
    (h : s.tmatches.find? (fun m => m.id == tid) = none) :
    log_tournament_match tid w sc today s
      = (s, .err 404 "Match not found or already completed.") := by
  unfold log_tournament_match
  rw [h]

theorem log_tmatch_decided (tid w : Int) (sc : String) (today : Nat) (s : DBState)
    (m : TournamentMatch) (h : s.tmatches.find? (fun x => x.id == tid) = some m)
    (hw : m.winner_id ≠ none) :
    log_tournament_match tid w sc today s
      = (s, .err 404 "Match not found or already completed.") := by
  unfold log_tournament_match
  rw [h]
  dsimp only
  rw [if_pos hw]

theorem log_tmatch_bye (tid w : Int) (sc : String) (today : Nat) (s : DBState)
    (m : TournamentMatch) (h : s.tmatches.find? (fun x => x.id == tid) = some m)
    (hund : m.winner_id = none) (hp1 : w = m.player1_id) (hp2 : m.player2_id = none) :
    log_tournament_match tid w sc today s
      = (s, .err 400 "Cannot log a winner for a BYE match.") := by
  unfold log_tournament_match
  rw [h]
  dsimp only
  rw [if_neg (not_not_intro hund), if_pos hp1, if_pos hp2]

theorem log_tmatch_invalid (tid w : Int) (sc : String) (today : Nat) (s : DBState)
    (m : TournamentMatch) (h : s.tmatches.find? (fun x => x.id == tid) = some m)
    (hund : m.winner_id = none) (hp1 : w ≠ m.player1_id) (hp2 : some w ≠ m.player2_id) :
    log_tournament_match tid w sc today s
      = (s, .err 400 "Invalid winner submitted.") := by
  unfold log_tournament_match
  rw [h]
  dsimp only
  rw [if_neg (not_not_intro hund), if_neg hp1, if_neg hp2]

/-- The successful write of `log_tournament_match`: winner, score and
date are set on the row.  No tournament-phase condition appears: the
handler never reads `config.tournament_state`. -/
theorem log_tmatch_writes (tid w : Int) (sc : String) (today : Nat) (s : DBState)
    (m : TournamentMatch) (h : s.tmatches.find? (fun x => x.id == tid) = some m)
    (hund : m.winner_id = none)
    (hval : (w = m.player1_id ∧ m.player2_id ≠ none) ∨ some w = m.player2_id) :
    log_tournament_match tid w sc today s
      = ({ s with
            tmatches := updateFirst (fun x => x.id == tid)
              (fun x => { x with winner_id := some w, score := some sc,
                                 match_date := some today }) s.tmatches }, .redirect) := by
  unfold log_tournament_match
  rw [h]
  dsimp only
  rw [if_neg (not_not_intro hund)]
  rcases hval with ⟨hp1, hp2⟩ | hp2
  · rw [if_pos hp1, if_neg hp2]
  · by_cases hp1 : w = m.player1_id
    · rw [if_pos hp1, if_neg]
      intro hcon
      rw [hcon] at hp2
      exact Option.noConfusion hp2
    · rw [if_neg hp1, if_pos hp2]

/-- C7 (amended).  Illegal attempts on the tournament state machine are
reported as errors, with these exceptions: the duplicate signup and the
round-not-ready cases are silent no-op redirects, and so is
`admin_start_signup` fired outside phases 0 and 3; moreover a missing
match id and an already-decided match produce one and the same 404
reply, not two distinct errors. -/
theorem C7_error_reporting (s : DBState) (today : Nat) (pid : Int) (sh : List Int)
    (tid w : Int) (sc : String) :
    (s.config.tournament_state ≠ 0 → s.config.tournament_state ≠ 3 →
      admin_start_signup today s = (s, .redirect)) ∧
    (s.config.tournament_state ≠ 1 →
      signup_for_tournament pid s = (s, .err 400 "Signup is not currently active.")) ∧
    (s.config.tournament_state = 1 → pid ∈ s.signups →
      signup_for_tournament pid s = (s, .redirect)) ∧
    (s.config.tournament_state ≠ 1 →
      admin_start_tournament sh s = (s, .err 400 "Signup is not currently active.")) ∧
    (s.config.tournament_state = 1 → s.signups.length < 2 →
      admin_start_tournament sh s
        = (s, .err 400 "Need at least 2 players to start a tournament.")) ∧
    (s.config.tournament_state ≠ 2 →
      admin_start_next_round today s = (s, .err 400 "Tournament is not currently active.")) ∧
    (∀ t : Tournament, s.config.tournament_state = 2 → s.tournaments.getLast? = some t →
      (∃ m ∈ tmsOf s t.id, m.round_num = maxRound (tmsOf s t.id) ∧
        m.player2_id ≠ none ∧ m.winner_id = none) →
      admin_start_next_round today s = (s, .redirect)) ∧
    (s.tmatches.find? (fun m => m.id == tid) = none →
      log_tournament_match tid w sc today s
        = (s, .err 404 "Match not found or already completed.")) ∧
    (∀ m : TournamentMatch, s.tmatches.find? (fun x => x.id == tid) = some m →
      m.winner_id ≠ none →
      log_tournament_match tid w sc today s
        = (s, .err 404 "Match not found or already completed.")) ∧
    (∀ m : TournamentMatch, s.tmatches.find? (fun x => x.id == tid) = some m →
      m.winner_id = none → w = m.player1_id → m.player2_id = none →
      log_tournament_match tid w sc today s
        = (s, .err 400 "Cannot log a winner for a BYE match.")) ∧
    (∀ m : TournamentMatch, s.tmatches.find? (fun x => x.id == tid) = some m →
      m.winner_id = none → w ≠ m.player1_id → some w ≠ m.player2_id →
      log_tournament_match tid w sc today s
        = (s, .err 400 "Invalid winner submitted.")) := by
  refine ⟨fun h0 h3 => admin_start_signup_illegal today s h0 h3,
          fun h => signup_wrong_phase pid s h,
          fun h1 hdup => signup_duplicate pid s h1 hdup,
          fun h => start_tournament_wrong_phase sh s h,
          fun h1 hfew => start_tournament_few_players sh s h1 hfew,
          fun h => next_round_wrong_phase today s h,
          fun t h2 ht hex => ?_,
          fun h => log_tmatch_missing tid w sc today s h,
          fun m h hw => log_tmatch_decided tid w sc today s m h hw,
          fun m h hund hp1 hp2 => log_tmatch_bye tid w sc today s m h hund hp1 hp2,
          fun m h hund hp1 hp2 => log_tmatch_invalid tid w sc today s m h hund hp1 hp2⟩
  obtain ⟨m, hm, hr, hp2, hw⟩ := hex
  exact next_round_not_ready today s t h2 ht m hm hr hp2 hw

/-- Counterexample to C7 as stated: from the signup phase,
`admin_start_signup` is an illegal transition (the spec allows it only
from NONE or CONCLUDED), yet the handler silently redirects with the
state unchanged instead of reporting an error; and a missing match id
versus an already-decided match produce the identical 404 reply rather
than distinct typed errors. -/
theorem C7_counterexample :
    signupPhaseState.config.tournament_state = 1 ∧
    admin_start_signup 3 signupPhaseState = (signupPhaseState, .redirect) ∧
    log_tournament_match 1 1 "2-0" 0 signupPhaseState
      = (signupPhaseState, .err 404 "Match not found or already completed.") ∧
    log_tournament_match 1 2 "2-0" 0 decidedMatchState
      = (decidedMatchState, .err 404 "Match not found or already completed.") :=
  ⟨rfl, rfl, rfl, rfl⟩

/-- Witness for C7: the amended theorem applied to the fresh database
(signup attempted outside the signup phase errors out). -/
theorem C7_witness :
    initState.config.tournament_state ≠ 1 ∧
    signup_for_tournament 5 initState
      = (initState, .err 400 "Signup is not currently active.") := by
  refine ⟨by decide, ?_⟩
  exact (C7_error_reporting initState 0 5 [] 0 0 "").2.1 (by decide)

/-- C6 (amended).  `log_tournament_match` checks no tournament phase at
all: in *every* state — whatever `config.tournament_state` holds — if
the row exists, is undecided, has a real opponent and the submitted
winner is one of its players, the handler writes winner, score and date
and redirects. -/
theorem C6_log_ignores_phase (s : DBState) (tid w : Int) (sc : String) (today : Nat)
    (m : TournamentMatch) (h : s.tmatches.find? (fun x => x.id == tid) = some m)
    (hund : m.winner_id = none)
    (hval : (w = m.player1_id ∧ m.player2_id ≠ none) ∨ some w = m.player2_id) :
    log_tournament_match tid w sc today s
      = ({ s with
            tmatches := updateFirst (fun x => x.id == tid)
              (fun x => { x with winner_id := some w, score := some sc,
                                 match_date := some today }) s.tmatches }, .redirect) :=
  log_tmatch_writes tid w sc today s m h hund hval

/-- Counterexample to C6 as stated: after start signup, two signups,
tournament start and the administrative `admin_end_tournament`
override, the database is reachable, sits in phase 0 (NONE), and still
holds the undecided round-1 match — and `log_tournament_match`
happily sets its winner. -/
theorem C6_counterexample :
    Reachable traceS7 ∧
    traceS7.config.tournament_state = 0 ∧
    traceS7.tmatches.map (fun m => m.winner_id) = [none] ∧
    (log_tournament_match 1 1 "3-0" 7 traceS7).2 = Resp.redirect ∧
    (log_tournament_match 1 1 "3-0" 7 traceS7).1.tmatches.map (fun m => m.winner_id)
      = [some 1] := by
  refine ⟨?_, rfl, rfl, rfl, rfl⟩
  have r1 : Reachable traceS1 :=
    Relation.ReflTransGen.single (Step.add_player "Ada" initState)
  have r2 : Reachable traceS2 := Relation.ReflTransGen.tail r1 (Step.add_player "Ben" traceS1)
  have r3 : Reachable traceS3 := Relation.ReflTransGen.tail r2 (Step.start_signup 0 traceS2)
  have r4 : Reachable traceS4 := Relation.ReflTransGen.tail r3 (Step.signup 1 traceS3)
  have r5 : Reachable traceS5 := Relation.ReflTransGen.tail r4 (Step.signup 2 traceS4)
  have r6 : Reachable traceS6 :=
    Relation.ReflTransGen.tail r5 (Step.start_tournament [1, 2] traceS5 (List.Perm.refl _))
  exact Relation.ReflTransGen.tail r6 (Step.end_tournament traceS6)

/-- Witness for C6: the amended theorem applied in the phase-0 state of
the counterexample trace. -/
theorem C6_witness :
    traceS7.config.tournament_state = 0 ∧
    (log_tournament_match 1 1 "3-0" 7 traceS7).2 = Resp.redirect := by
  refine ⟨rfl, ?_⟩
  have h := C6_log_ignores_phase traceS7 1 1 "3-0" 7
      { id := 1, tournament_id := some 1, round_num := 1, match_num := 1,
        player1_id := 1, player2_id := some 2 } rfl rfl (Or.inl ⟨rfl, by decide⟩)
  rw [h]

/-- C4 (amended).  When the current round of the active tournament is
"ready" (no undecided non-bye match) but yields zero winners,
`admin_start_next_round` does not reject the edge case: it concludes the
tournament, recording a null champion (`winner_id := none`), stamping
the end date, and setting the phase to 3 (CONCLUDED). -/
theorem C4_zero_winners_concludes (today : Nat) (s : DBState) (t : Tournament)
    (h2 : s.config.tournament_state = 2) (ht : s.tournaments.getLast? = some t)
    (hne : tmsOf s t.id ≠ [])
    (hready : incompleteOf (tmsOf s t.id) (maxRound (tmsOf s t.id)) = [])
    (hzero : winnersOf (tmsOf s t.id) (maxRound (tmsOf s t.id)) = []) :
    admin_start_next_round today s
      = ({ s with
            tournaments := updateLast
              (fun u => { u with winner_id := none, end_date := some today })
              s.tournaments,
            config := { s.config with tournament_state := 3 } }, .redirect) := by
  unfold admin_start_next_round
  rw [if_neg (not_not_intro h2), ht]
  dsimp only
  rw [if_neg hne, if_neg (not_not_intro hready), hzero]
  simp

/-- Counterexample to C4 as stated: a current round consisting of one
undecided bye-shaped row is "fully decided" for the handler (the
incomplete-match query excludes rows with null `player2`) and has zero
winners, and `admin_start_next_round` concludes the tournament with a
null champion and phase CONCLUDED instead of rejecting. -/
theorem C4_counterexample :
    incompleteOf (tmsOf zeroWinnerState 1) (maxRound (tmsOf zeroWinnerState 1)) = [] ∧
    winnersOf (tmsOf zeroWinnerState 1) (maxRound (tmsOf zeroWinnerState 1)) = [] ∧
    (admin_start_next_round 5 zeroWinnerState).1.config.tournament_state = 3 ∧
    (admin_start_next_round 5 zeroWinnerState).1.tournaments
      = [{ id := 1, end_date := some 5, winner_id := none }] ∧
    (admin_start_next_round 5 zeroWinnerState).2 = Resp.redirect :=
  ⟨rfl, rfl, rfl, rfl, rfl⟩

/-- Witness for C4: the amended theorem applied to the zero-winner
state. -/
theorem C4_witness :
    zeroWinnerState.config.tournament_state = 2 ∧
    (admin_start_next_round 5 zeroWinnerState).1.config.tournament_state = 3 := by
  refine ⟨rfl, ?_⟩
  rw [C4_zero_winners_concludes 5 zeroWinnerState { id := 1 } rfl rfl (by decide) rfl rfl]

/-- C2 (amended).  The best-of-5 escalation of the next-round builder
counts *all* slots of the new round — paired matches plus the bye slot —
not only the paired ones: a paired next-round match is created with
`best_of_games = 5` exactly when the winner list has length 2 (a single
slot in total) and `next_round > 1`; with an odd winner count the bye
slot makes the total 2, so the lone paired match is created with
`best_of_games = 3`. -/
theorem C2_best_of_counts_bye (tid : Int) (r : Nat) (ws : List Int) (h2 : 2 ≤ ws.length) :
    ∀ m ∈ nextRoundSlots tid r ws, m.player2_id ≠ none →
      (m.best_of_games = 5 ↔ ws.length = 2 ∧ 1 < r) := by
  intro m hm hp2
  simp only [nextRoundSlots] at hm
  rcases List.mem_append.mp hm with h | h
  · obtain ⟨-, -, -, -, -, hbo⟩ := pairOff_mem _ _ _ _ _ m h
    rw [hbo]
    have h35 : ∀ C : Prop, ∀ inst : Decidable C, (@ite _ C inst (5 : Nat) 3) = 5 ↔ C := by
      intro C inst
      split
      · simp [*]
      · simp [*]
    rw [h35]
    by_cases hodd : ws.length % 2 = 0
    · simp only [hodd, ne_eq, not_true_eq_false, if_neg, ite_false]
      constructor
      · rintro ⟨h1, hr⟩
        exact ⟨by omega, hr⟩
      · rintro ⟨h1, hr⟩
        exact ⟨by omega, hr⟩
    · simp only [ne_eq, hodd, not_false_eq_true, ite_true]
      constructor
      · rintro ⟨h1, hr⟩
        omega
      · rintro ⟨h1, hr⟩
        omega
  · by_cases hodd : ws.length % 2 ≠ 0
    · rw [if_pos hodd] at h
      have hmb : m = byeSlot (some tid) r (ws.length / 2 + 1) (ws.getLast?.getD 0) := by
        simpa using h
      rw [hmb] at hp2
      exact absurd rfl hp2
    · rw [if_neg hodd] at h
      exact absurd h (List.not_mem_nil m)

/-- Counterexample to C2 as stated: three winners advance, so the next
round holds exactly one paired match (plus a bye) and `next_round = 2 >
1`; the claim demands that the paired match be created with
`best_of_games = 5`, but the handler creates it with 3, because the
source's check `num_matches + (1 if last_winner_gets_bye else 0) == 1`
counts the bye slot too. -/
theorem C2_counterexample :
    winnersOf (tmsOf threeWinnerState 1) (maxRound (tmsOf threeWinnerState 1)) = [1, 3, 5] ∧
    ((admin_start_next_round 9 threeWinnerState).1.tmatches.filter
        (fun m => m.round_num == 2 && m.player2_id != none)).map (fun m => m.best_of_games)
      = [3] ∧
    ((admin_start_next_round 9 threeWinnerState).1.tmatches.filter
        (fun m => m.round_num == 2)).map (fun m => m.match_num) = [1, 2] ∧
    (admin_start_next_round 9 threeWinnerState).2 = Resp.redirect :=
  ⟨rfl, rfl, rfl, rfl⟩

/-- Witness for C2: with exactly two winners and `next_round = 2` the
amended theorem forces best-of-5 on the single paired match. -/
theorem C2_witness :
    2 ≤ ([1, 2] : List Int).length ∧
    (pairSlot (some 1) 2 1 1 2 5).best_of_games = 5 := by
  refine ⟨by decide, ?_⟩
  exact (C2_best_of_counts_bye 1 2 [1, 2] (by decide) (pairSlot (some 1) 2 1 1 2 5)
    (by decide) (by decide)).mpr ⟨rfl, by decide⟩

/-- The advancing branch of `admin_start_next_round`: with the round
ready and at least two winners, the handler appends exactly the
next-round slots (with fresh primary keys) and redirects. -/
theorem next_round_advances (today : Nat) (s : DBState) (t : Tournament)
    (h2 : s.config.tournament_state = 2) (ht : s.tournaments.getLast? = some t)
    (hne : tmsOf s t.id ≠ [])
    (hready : incompleteOf (tmsOf s t.id) (maxRound (tmsOf s t.id)) = [])
    (hlen : 2 ≤ (winnersOf (tmsOf s t.id) (maxRound (tmsOf s t.id))).length) :
    admin_start_next_round today s
      = ({ s with
            tmatches := s.tmatches ++ assignIds s.next_tmatch_id
              (nextRoundSlots t.id (maxRound (tmsOf s t.id) + 1)
                (winnersOf (tmsOf s t.id) (maxRound (tmsOf s t.id)))),
            next_tmatch_id := s.next_tmatch_id +
              (nextRoundSlots t.id (maxRound (tmsOf s t.id) + 1)
                (winnersOf (tmsOf s t.id) (maxRound (tmsOf s t.id)))).length }, .redirect) := by
  unfold admin_start_next_round
  rw [if_neg (not_not_intro h2), ht]
  dsimp only
  rw [if_neg hne, if_neg (not_not_intro hready), if_neg (by omega)]

/-- Splitting `nextRoundSlots` on an odd-length winner list: consecutive
pairs followed by one bye slot for the last winner. -/
theorem nextRoundSlots_odd (tid : Int) (r : Nat) (ws : List Int)
    (hodd : ws.length % 2 = 1) :
    nextRoundSlots tid r ws
      = pairOff (some tid) r (if ws.length / 2 + 1 = 1 ∧ 1 < r then 5 else 3) 1 ws
        ++ [byeSlot (some tid) r (ws.length / 2 + 1) (ws.getLast?.getD 0)] := by
  simp only [nextRoundSlots, hodd]
  norm_num

/-- C5.  For a ready round with an odd number `k ≥ 3` of winners, the
handler appends the next round built from the match-number-ordered
winner list `W`: `k / 2` paired matches numbered `1..k/2` whose slot
occupants read off in order are exactly the first `k - 1 = 2 * (k / 2)`
winners (so `W[0]` vs `W[1]`, `W[2]` vs `W[3]`, ...), all undecided, and
as the last slot a bye numbered `k / 2 + 1` for the last winner
(`byeSlot` sets `winner` to that player, `player2 = null` and
score "BYE"). -/
theorem C5_odd_winner_round (today : Nat) (s : DBState) (t : Tournament) (cr : Nat)
    (W : List Int)
    (h2 : s.config.tournament_state = 2) (ht : s.tournaments.getLast? = some t)
    (hne : tmsOf s t.id ≠ [])
    (hcr : maxRound (tmsOf s t.id) = cr)
    (hready : incompleteOf (tmsOf s t.id) cr = [])
    (hW : winnersOf (tmsOf s t.id) cr = W)
    (hodd : W.length % 2 = 1) (h3 : 3 ≤ W.length) :
    admin_start_next_round today s
      = ({ s with
            tmatches := s.tmatches ++ assignIds s.next_tmatch_id
              (nextRoundSlots t.id (cr + 1) W),
            next_tmatch_id := s.next_tmatch_id +
              (nextRoundSlots t.id (cr + 1) W).length }, .redirect) ∧
    (nextRoundSlots t.id (cr + 1) W).length = W.length / 2 + 1 ∧
    ((nextRoundSlots t.id (cr + 1) W).filter (fun m => m.player2_id.isSome)).map
        (fun m => m.match_num) = List.range' 1 (W.length / 2) ∧
    slotPlayers ((nextRoundSlots t.id (cr + 1) W).filter (fun m => m.player2_id.isSome))
      = W.take (2 * (W.length / 2)) ∧
    (∀ m ∈ nextRoundSlots t.id (cr + 1) W, m.player2_id ≠ none →
      m.winner_id = none ∧ m.round_num = cr + 1) ∧
    (nextRoundSlots t.id (cr + 1) W).getLast?
      = some (byeSlot (some t.id) (cr + 1) (W.length / 2 + 1) (W.getLast?.getD 0)) := by
  have hsplit := nextRoundSlots_odd t.id (cr + 1) W hodd
  refine ⟨?_, ?_, ?_, ?_, ?_, ?_⟩
  · have h := next_round_advances today s t h2 ht hne (hcr ▸ hready) (by rw [hcr, hW]; omega)
    rw [hcr, hW] at h
    exact h
  · rw [hsplit, List.length_append, pairOff_length]
    simp
  · rw [hsplit, List.filter_append, pairOff_filter_real]
    have hb : ([byeSlot (some t.id) (cr + 1) (W.length / 2 + 1) (W.getLast?.getD 0)]).filter
        (fun m => m.player2_id.isSome) = [] := rfl
    rw [hb, List.append_nil, pairOff_matchNums]
  · rw [hsplit, List.filter_append, pairOff_filter_real]
    have hb : ([byeSlot (some t.id) (cr + 1) (W.length / 2 + 1) (W.getLast?.getD 0)]).filter
        (fun m => m.player2_id.isSome) = [] := rfl
    rw [hb, List.append_nil, pairOff_slotPlayers]
  · intro m hm hp2
    rw [hsplit] at hm
    rcases List.mem_append.mp hm with h | h
    · obtain ⟨-, hr, -, hw, -, -⟩ := pairOff_mem _ _ _ _ _ m h
      exact ⟨hw, hr⟩
    · have hmb : m = byeSlot (some t.id) (cr + 1) (W.length / 2 + 1) (W.getLast?.getD 0) := by
        simpa using h
      rw [hmb] at hp2
      exact absurd rfl hp2
  · rw [hsplit]
    exact List.getLast?_concat _

/-- Witness for C5 at the three-winner state: the next round is one
paired match (winners 1 vs 3, match 1) plus a bye for winner 5
(match 2). -/
theorem C5_witness :
    (winnersOf (tmsOf threeWinnerState 1) (maxRound (tmsOf threeWinnerState 1)) = [1, 3, 5]) ∧
    slotPlayers ((nextRoundSlots 1 2 [1, 3, 5]).filter (fun m => m.player2_id.isSome))
      = [1, 3] ∧
    (nextRoundSlots 1 2 [1, 3, 5]).getLast? = some (byeSlot (some 1) 2 2 5) := by
  have h := C5_odd_winner_round 9 threeWinnerState { id := 1 } 1 [1, 3, 5] rfl rfl
    (by decide) rfl rfl rfl (by decide) (by decide)
  refine ⟨rfl, ?_, h.2.2.2.2.2⟩
  have h4 := h.2.2.2.1
  simpa using h4

theorem mem_of_mem_removeFirst (p : α → Bool) :
    ∀ (l : List α) (a : α), a ∈ removeFirst p l → a ∈ l
  | x :: xs, a, h => by
    unfold removeFirst at h
    by_cases hx : p x
    · rw [if_pos hx] at h
      exact List.mem_cons_of_mem x h
    · rw [if_neg hx] at h
      rcases List.mem_cons.mp h with h | h
      · exact h ▸ List.mem_cons_self a xs
      · exact List.mem_cons_of_mem x (mem_of_mem_removeFirst p xs a h)

/-- C10.  Removing a player deletes every league match the player won or
lost and the player's row, and nothing else: every surviving player row
is carried over verbatim (its rating, wins and losses are exactly what
they were — the deltas of the deleted matches are *not* reversed), every
surviving match involves neither side of the removed player, and every
match not involving the player survives.  Tournament tables, config and
counters are untouched. -/
theorem C10_remove_player_frame (s : DBState) (pid : Int)
    (hp : (s.players.find? (fun p => p.id == pid)).isSome) :
    (remove_player pid s).1
      = { s with
          players := removeFirst (fun p => p.id == pid) s.players,
          «matches» := s.matches.filter
            (fun m => !(m.winner_id == pid || m.loser_id == pid)) } ∧
    (∀ q ∈ (remove_player pid s).1.players, q ∈ s.players) ∧
    (∀ m ∈ (remove_player pid s).1.matches,
      m ∈ s.matches ∧ m.winner_id ≠ pid ∧ m.loser_id ≠ pid) ∧
    (∀ m ∈ s.matches, m.winner_id ≠ pid → m.loser_id ≠ pid →
      m ∈ (remove_player pid s).1.matches) := by
  obtain ⟨q, hfind⟩ := Option.isSome_iff_exists.mp hp
  have heq : (remove_player pid s).1
      = { s with
          players := removeFirst (fun p => p.id == pid) s.players,
          «matches» := s.matches.filter
            (fun m => !(m.winner_id == pid || m.loser_id == pid)) } := by
    unfold remove_player
    rw [hfind]
  refine ⟨heq, ?_, ?_, ?_⟩
  · intro a ha
    rw [heq] at ha
    exact mem_of_mem_removeFirst _ s.players a ha
  · intro m hm
    rw [heq] at hm
    have := List.mem_filter.mp hm
    refine ⟨this.1, ?_, ?_⟩
    · have hb := this.2
      simp only [Bool.not_eq_true', Bool.or_eq_false_iff, beq_eq_false_iff_ne, ne_eq] at hb
      exact hb.1
    · have hb := this.2
      simp only [Bool.not_eq_true', Bool.or_eq_false_iff, beq_eq_false_iff_ne, ne_eq] at hb
      exact hb.2
  · intro m hm hw hl
    rw [heq]
    apply List.mem_filter.mpr
    refine ⟨hm, ?_⟩
    simp [hw, hl]

/-- Witness for C10: removing player 2 from the three-player league
deletes exactly the match 1-vs-2 and leaves the rows of players 1 and 3
(ratings, wins, losses) untouched. -/
theorem C10_witness :
    (leagueState.players.find? (fun p => p.id == 2)).isSome ∧
    (∀ q ∈ (remove_player 2 leagueState).1.players, q ∈ leagueState.players) ∧
    (remove_player 2 leagueState).1.players
      = [{ id := 1, name := "Ada", elo := 1215, wins := 1, losses := 1 },
         { id := 3, name := "Cy", elo := 1217, wins := 1, losses := 0 }] ∧
    (remove_player 2 leagueState).1.matches
      = [{ id := 2, winner_id := 3, loser_id := 1, score := "11-7",
           winner_pre_elo := 1200, loser_pre_elo := 1216,
           winner_post_elo := 1217, loser_post_elo := 1215 }] := by
  refine ⟨by decide, (C10_remove_player_frame leagueState 2 (by decide)).2.1, ?_, ?_⟩
  · decide
  · decide

/-- The two expected scores of the Elo formula sum to exactly 1. -/
theorem expected_scores_sum (x : ℝ) :
    1 / (1 + (10 : ℝ) ^ x) + 1 / (1 + (10 : ℝ) ^ (-x)) = 1 := by
  have hx : (0 : ℝ) < (10 : ℝ) ^ x := Real.rpow_pos_of_pos (by norm_num) x
  have hnx : (10 : ℝ) ^ (-x) = ((10 : ℝ) ^ x)⁻¹ := by
    rw [Real.rpow_neg (by norm_num)]
  rw [hnx]
  have h1 : (1 : ℝ) + (10 : ℝ) ^ x ≠ 0 := by positivity
  have h2 : (1 : ℝ) + ((10 : ℝ) ^ x)⁻¹ ≠ 0 := by positivity
  field_simp
  ring

/-- C9.  `calculate_elo` is zero-sum up to rounding: for every pair of
integer ratings, the winner's rating change plus the loser's rating
change has absolute value at most 1. -/
theorem C9_calculate_elo_zero_sum (w l : Int) :
    |((calculate_elo w l).1 - w) + ((calculate_elo w l).2 - l)| ≤ 1 := by
  unfold calculate_elo
  dsimp only
  set x : ℝ := ((l : ℝ) - (w : ℝ)) / 400 with hxdef
  have hswap : ((w : ℝ) - (l : ℝ)) / 400 = -x := by
    rw [hxdef]; ring
  rw [hswap]
  have hel : (1 : ℝ) / (1 + (10 : ℝ) ^ (-x)) = 1 - 1 / (1 + (10 : ℝ) ^ x) := by
    have := expected_scores_sum x
    linarith
  rw [hel]
  set e : ℝ := 1 / (1 + (10 : ℝ) ^ x) with hedef
  set A : ℝ := (w : ℝ) + 32 * (1 - e) with hA
  set B : ℝ := (l : ℝ) + 32 * (0 - (1 - e)) with hB
  have habs1 : |((round A : ℤ) : ℝ) - A| ≤ 1 / 2 := by
    rw [abs_sub_comm]
    exact abs_sub_round A
  have habs2 : |((round B : ℤ) : ℝ) - B| ≤ 1 / 2 := by
    rw [abs_sub_comm]
    exact abs_sub_round B
  have hsum : A + B = (w : ℝ) + (l : ℝ) := by
    rw [hA, hB]; ring
  have hreal : |(((round A - w + (round B - l)) : ℤ) : ℝ)| ≤ 1 := by
    have hcast : (((round A - w + (round B - l)) : ℤ) : ℝ)
        = (((round A : ℤ) : ℝ) - A) + (((round B : ℤ) : ℝ) - B) := by
      push_cast
      linarith
    rw [hcast]
    calc |(((round A : ℤ) : ℝ) - A) + (((round B : ℤ) : ℝ) - B)|
        ≤ |((round A : ℤ) : ℝ) - A| + |((round B : ℤ) : ℝ) - B| := abs_add _ _
      _ ≤ 1 / 2 + 1 / 2 := add_le_add habs1 habs2
      _ = 1 := by norm_num
  exact_mod_cast hreal

theorem updateFirst_of_fix (p : α → Bool) (f : α → α) :
    ∀ (l : List α) (x : α), l.find? p = some x → f x = x → updateFirst p f l = l
  | y :: ys, x, h, hfx => by
    by_cases hy : p y
    · rw [List.find?_cons_of_pos _ hy] at h
      injection h with h
      subst h
      unfold updateFirst
      rw [if_pos hy, hfx]
    · rw [List.find?_cons_of_neg _ hy] at h
      unfold updateFirst
      rw [if_neg hy, updateFirst_of_fix p f ys x h hfx]

theorem find?_updateFirst_same (p : α → Bool) (f : α → α)
    (hf : ∀ x, p x = true → p (f x) = true) :
    ∀ (l : List α) (x : α), l.find? p = some x →
      (updateFirst p f l).find? p = some (f x)
  | y :: ys, x, h => by
    by_cases hy : p y
    · rw [List.find?_cons_of_pos _ hy] at h
      injection h with h
      subst h
      unfold updateFirst
      rw [if_pos hy]
      exact List.find?_cons_of_pos _ (hf _ hy)
    · rw [List.find?_cons_of_neg _ hy] at h
      unfold updateFirst
      rw [if_neg hy, List.find?_cons_of_neg _ hy]
      exact find?_updateFirst_same p f hf ys x h

theorem find?_updateFirst_disjoint (p q : α → Bool) (f : α → α)
    (hd : ∀ x, q x = true → p x = false ∧ p (f x) = false) :
    ∀ l : List α, (updateFirst q f l).find? p = l.find? p
  | [] => rfl
  | y :: ys => by
    by_cases hy : q y
    · unfold updateFirst
      rw [if_pos hy]
      rw [List.find?_cons_of_neg _ (by simp [(hd y hy).2]),
          List.find?_cons_of_neg _ (by simp [(hd y hy).1])]
    · unfold updateFirst
      rw [if_neg hy]
      by_cases hpy : p y
      · rw [List.find?_cons_of_pos _ hpy, List.find?_cons_of_pos _ hpy]
      · rw [List.find?_cons_of_neg _ hpy, List.find?_cons_of_neg _ hpy,
            find?_updateFirst_disjoint p q f hd ys]

theorem updateFirst_comm (p q : α → Bool) (f g : α → α)
    (hdisj : ∀ x, p x = true → q x = false)
    (hf : ∀ x, q (f x) = q x) (hg : ∀ x, p (g x) = p x) :
    ∀ l : List α,
      updateFirst p f (updateFirst q g l) = updateFirst q g (updateFirst p f l)
  | [] => rfl
  | x :: xs => by
    by_cases hp : p x
    · have hq : q x = false := hdisj x hp
      simp [updateFirst, hp, hq, hf x]
    · by_cases hq : q x
      · simp [updateFirst, hp, hq, hg x]
      · simp [updateFirst, hp, hq, updateFirst_comm p q f g hdisj hf hg xs]

theorem updateFirst_compose (p : α → Bool) (f g : α → α)
    (hf : ∀ x, p (f x) = p x) :
    ∀ l : List α, updateFirst p g (updateFirst p f l) = updateFirst p (fun x => g (f x)) l
  | [] => rfl
  | x :: xs => by
    by_cases hp : p x
    · simp [updateFirst, hp, hf x]
    · simp [updateFirst, hp, updateFirst_compose p f g hf xs]

theorem updateFirst_map (p : α → Bool) (f : α → α) (g : α → β)
    (hfg : ∀ x, g (f x) = g x) :
    ∀ l : List α, (updateFirst p f l).map g = l.map g
  | [] => rfl
  | x :: xs => by
    by_cases hp : p x
    · unfold updateFirst
      rw [if_pos hp]
      simp [hfg x]
    · unfold updateFirst
      rw [if_neg hp]
      simp [updateFirst_map p f g hfg xs]

theorem find?_append_left_none (p : α → Bool) :
    ∀ (l₁ l₂ : List α), (∀ x ∈ l₁, p x = false) → (l₁ ++ l₂).find? p = l₂.find? p
  | [], l₂, _ => rfl
  | x :: xs, l₂, h => by
    rw [List.cons_append, List.find?_cons_of_neg _ (by simp [h x (List.mem_cons_self x xs)])]
    exact find?_append_left_none p xs l₂ fun y hy => h y (List.mem_cons_of_mem x hy)

theorem removeFirst_append_last (p : α → Bool) (y : α) (hy : p y = true) :
    ∀ l : List α, (∀ x ∈ l, p x = false) → removeFirst p (l ++ [y]) = l
  | [], _ => by
    unfold removeFirst
    rw [List.nil_append]
    show (if p y then [] else y :: removeFirst p []) = []
    rw [if_pos hy]
  | x :: xs, h => by
    rw [List.cons_append]
    unfold removeFirst
    rw [if_neg (by simp [h x (List.mem_cons_self x xs)])]
    rw [removeFirst_append_last p y hy xs fun z hz => h z (List.mem_cons_of_mem x hz)]

theorem removeMatches_append :
    ∀ (a b : List Int) (X : DBState),
      removeMatches (a ++ b) X = removeMatches b (removeMatches a X)
  | [], _, _ => rfl
  | i :: a, b, X => by
    show removeMatches (a ++ b) (remove_match i X).1
        = removeMatches b (removeMatches a (remove_match i X).1)
    exact removeMatches_append a b (remove_match i X).1

/-- Membership in `playerIds` produces the row that `db.session.get`
returns. -/
theorem mem_playerIds_find? (s : DBState) (a : Int) (h : a ∈ playerIds s) :
    ∃ p, s.players.find? (fun q => q.id == a) = some p ∧ p.id = a := by
  obtain ⟨p, hp, hpa⟩ := List.mem_map.mp h
  have hsome : (s.players.find? (fun q => q.id == a)).isSome := by
    rw [List.find?_isSome]
    exact ⟨p, hp, by simp [hpa]⟩
  obtain ⟨q, hq⟩ := Option.isSome_iff_exists.mp hsome
  refine ⟨q, hq, ?_⟩
  have := List.find?_some hq
  simpa using this

/-- The successful branch of `log_match`, written out: stats updated via
`calculate_elo`'s results, one match row appended carrying the four
pre/post snapshots, counter bumped. -/
theorem log_match_success (celo : Int → Int → Int × Int) (w l : Int) (sc : String)
    (s : DBState) (pw pl : Player)
    (hwl : w ≠ l)
    (hfw : s.players.find? (fun q => q.id == w) = some pw)
    (hfl : s.players.find? (fun q => q.id == l) = some pl) :
    log_match celo w l sc s
      = ({ s with
            players :=
              updateFirst (fun p => p.id == l)
                (fun p => { p with elo := (celo pw.elo pl.elo).2, losses := p.losses + 1 })
                (updateFirst (fun p => p.id == w)
                  (fun p => { p with elo := (celo pw.elo pl.elo).1, wins := p.wins + 1 })
                  s.players),
            «matches» := s.matches ++
              [{ id := s.next_match_id, winner_id := w, loser_id := l, score := sc,
                 winner_pre_elo := pw.elo, loser_pre_elo := pl.elo,
                 winner_post_elo := (celo pw.elo pl.elo).1,
                 loser_post_elo := (celo pw.elo pl.elo).2 }],
            next_match_id := s.next_match_id + 1 }, .redirect) := by
  unfold log_match
  rw [if_neg hwl, hfw, hfl]

/-- The match-found branch of `remove_match` with both players present:
stored deltas subtracted, one win/loss subtracted, row deleted. -/
theorem remove_match_success (i : Int) (s : DBState) (m : Match) (pw pl : Player)
    (hfm : s.matches.find? (fun x => x.id == i) = some m)
    (hfw : s.players.find? (fun p => p.id == m.winner_id) = some pw)
    (hfl : s.players.find? (fun p => p.id == m.loser_id) = some pl) :
    remove_match i s
      = ({ s with
            players :=
              updateFirst (fun p => p.id == m.loser_id)
                (fun p => { p with elo := p.elo - (m.loser_post_elo - m.loser_pre_elo),
                                   losses := p.losses - 1 })
                (updateFirst (fun p => p.id == m.winner_id)
                  (fun p => { p with elo := p.elo - (m.winner_post_elo - m.winner_pre_elo),
                                     wins := p.wins - 1 })
                  s.players),
            «matches» := removeFirst (fun x => x.id == i) s.matches }, .redirect) := by
  unfold remove_match
  rw [hfm]
  dsimp only
  rw [hfw, hfl]

/-- Applying the two stat reversals of `remove_match` after the two stat
updates of `log_match` gives back the original player table: the deltas
are the stored snapshots, so the composition fixes the two affected
rows and never touches the rest. -/
theorem players_roundtrip (P : List Player) (w l R1 R2 : Int) (pw pl : Player)
    (hwl : w ≠ l)
    (hfw : P.find? (fun q => q.id == w) = some pw)
    (hfl : P.find? (fun q => q.id == l) = some pl) :
    updateFirst (fun p => p.id == l)
      (fun p => { p with elo := p.elo - (R2 - pl.elo), losses := p.losses - 1 })
      (updateFirst (fun p => p.id == w)
        (fun p => { p with elo := p.elo - (R1 - pw.elo), wins := p.wins - 1 })
        (updateFirst (fun p => p.id == l)
          (fun p => { p with elo := R2, losses := p.losses + 1 })
          (updateFirst (fun p => p.id == w)
            (fun p => { p with elo := R1, wins := p.wins + 1 }) P))) = P := by
  have hdisj1 : ∀ x : Player, (x.id == w) = true → (x.id == l) = false := by
    intro x hx
    rw [beq_iff_eq] at hx
    rw [beq_eq_false_iff_ne, hx]
    exact hwl
  rw [updateFirst_comm (fun p : Player => p.id == w) (fun p : Player => p.id == l)
      (fun p : Player => { p with elo := p.elo - (R1 - pw.elo), wins := p.wins - 1 })
      (fun p : Player => { p with elo := R2, losses := p.losses + 1 })
      hdisj1 (fun x => rfl) (fun x => rfl)]
  rw [updateFirst_compose (fun p : Player => p.id == l)
      (fun p : Player => { p with elo := R2, losses := p.losses + 1 })
      (fun p : Player => { p with elo := p.elo - (R2 - pl.elo), losses := p.losses - 1 })
      (fun x => rfl)]
  rw [updateFirst_compose (fun p : Player => p.id == w)
      (fun p : Player => { p with elo := R1, wins := p.wins + 1 })
      (fun p : Player => { p with elo := p.elo - (R1 - pw.elo), wins := p.wins - 1 })
      (fun x => rfl)]
  have hfix1 : updateFirst (fun p : Player => p.id == w)
      (fun x => (fun p : Player => { p with elo := p.elo - (R1 - pw.elo), wins := p.wins - 1 })
        ((fun p : Player => { p with elo := R1, wins := p.wins + 1 }) x)) P = P := by
    apply updateFirst_of_fix _ _ P pw hfw
    cases pw
    simp
    try omega
  have hfix2 : updateFirst (fun p : Player => p.id == l)
      (fun x => (fun p : Player => { p with elo := p.elo - (R2 - pl.elo), losses := p.losses - 1 })
        ((fun p : Player => { p with elo := R2, losses := p.losses + 1 }) x)) P = P := by
    apply updateFirst_of_fix _ _ P pl hfl
    cases pl
    simp
    try omega
  rw [hfix1, hfix2]

/-- After the two `log_match` updates, the winner row found by id is the
updated winner row. -/
theorem find?_updates_winner (P : List Player) (w l : Int) (R1 R2 : Int) (pw : Player)
    (hwl : w ≠ l)
    (hfw : P.find? (fun q => q.id == w) = some pw) :
    (updateFirst (fun p => p.id == l)
        (fun p => { p with elo := R2, losses := p.losses + 1 })
        (updateFirst (fun p => p.id == w)
          (fun p => { p with elo := R1, wins := p.wins + 1 }) P)).find?
      (fun q => q.id == w)
      = some { pw with elo := R1, wins := pw.wins + 1 } := by
  rw [find?_updateFirst_disjoint (fun q : Player => q.id == w) (fun q : Player => q.id == l)
      (fun p : Player => { p with elo := R2, losses := p.losses + 1 }) ?hd]
  case hd =>
    intro x hx
    rw [beq_iff_eq] at hx
    constructor
    · rw [beq_eq_false_iff_ne, hx]
      exact fun h => hwl h.symm
    · show (x.id == w) = false
      rw [beq_eq_false_iff_ne, hx]
      exact fun h => hwl h.symm
  exact find?_updateFirst_same (fun q : Player => q.id == w)
    (fun p : Player => { p with elo := R1, wins := p.wins + 1 }) (fun x hx => hx) P pw hfw

/-- After the two `log_match` updates, the loser row found by id is the
updated loser row. -/
theorem find?_updates_loser (P : List Player) (w l : Int) (R1 R2 : Int) (pl : Player)
    (hwl : w ≠ l)
    (hfl : P.find? (fun q => q.id == l) = some pl) :
    (updateFirst (fun p => p.id == l)
        (fun p => { p with elo := R2, losses := p.losses + 1 })
        (updateFirst (fun p => p.id == w)
          (fun p => { p with elo := R1, wins := p.wins + 1 }) P)).find?
      (fun q => q.id == l)
      = some { pl with elo := R2, losses := pl.losses + 1 } := by
  apply find?_updateFirst_same (fun q : Player => q.id == l)
    (fun p : Player => { p with elo := R2, losses := p.losses + 1 }) (fun x hx => hx)
  rw [find?_updateFirst_disjoint (fun q : Player => q.id == l) (fun q : Player => q.id == w)
      (fun p : Player => { p with elo := R1, wins := p.wins + 1 }) ?hd]
  case hd =>
    intro x hx
    rw [beq_iff_eq] at hx
    constructor
    · rw [beq_eq_false_iff_ne, hx]
      exact hwl
    · show (x.id == l) = false
      rw [beq_eq_false_iff_ne, hx]
      exact hwl
  exact hfl

theorem find?_snoc_self (l : List Match) (m : Match) (nid : Int)
    (hlt : ∀ x ∈ l, x.id < nid) (hm : m.id = nid) :
    (l ++ [m]).find? (fun x => x.id == nid) = some m := by
  rw [find?_append_left_none _ l [m]
      (fun x hx => by rw [beq_eq_false_iff_ne]; have := hlt x hx; omega)]
  exact List.find?_cons_of_pos _ (by simp [hm])

/-- Core cancellation: deleting the match that `log_match` just created
restores the player table and the match table exactly (the
`next_match_id` counter is framed by `c`, which `remove_match` neither
reads nor writes). -/
theorem remove_log_cancel (celo : Int → Int → Int × Int) (w l : Int) (sc : String)
    (s : DBState) (c : Int)
    (hwl : w ≠ l) (hw : w ∈ playerIds s) (hl : l ∈ playerIds s)
    (hinv : MatchIdsBelow s) :
    (remove_match s.next_match_id
      { (log_match celo w l sc s).1 with next_match_id := c }).1
      = { s with next_match_id := c } := by
  obtain ⟨pw, hfw, hpwid⟩ := mem_playerIds_find? s w hw
  obtain ⟨pl, hfl, hplid⟩ := mem_playerIds_find? s l hl
  rw [log_match_success celo w l sc s pw pl hwl hfw hfl]
  dsimp only
  have hfm : (s.matches ++
      [({ id := s.next_match_id, winner_id := w, loser_id := l, score := sc,
          winner_pre_elo := pw.elo, loser_pre_elo := pl.elo,
          winner_post_elo := (celo pw.elo pl.elo).1,
          loser_post_elo := (celo pw.elo pl.elo).2 } : Match)]).find?
        (fun x => x.id == s.next_match_id)
      = some ({ id := s.next_match_id, winner_id := w, loser_id := l, score := sc,
                winner_pre_elo := pw.elo, loser_pre_elo := pl.elo,
                winner_post_elo := (celo pw.elo pl.elo).1,
                loser_post_elo := (celo pw.elo pl.elo).2 } : Match) :=
    find?_snoc_self s.matches
      ({ id := s.next_match_id, winner_id := w, loser_id := l, score := sc,
          winner_pre_elo := pw.elo, loser_pre_elo := pl.elo,
          winner_post_elo := (celo pw.elo pl.elo).1,
          loser_post_elo := (celo pw.elo pl.elo).2 } : Match)
      s.next_match_id hinv rfl
  have hfw2 := find?_updates_winner s.players w l
    (celo pw.elo pl.elo).1 (celo pw.elo pl.elo).2 pw hwl hfw
  have hfl2 := find?_updates_loser s.players w l
    (celo pw.elo pl.elo).1 (celo pw.elo pl.elo).2 pl hwl hfl
  rw [remove_match_success s.next_match_id _
      ({ id := s.next_match_id, winner_id := w, loser_id := l, score := sc,
         winner_pre_elo := pw.elo, loser_pre_elo := pl.elo,
         winner_post_elo := (celo pw.elo pl.elo).1,
         loser_post_elo := (celo pw.elo pl.elo).2 } : Match)
      ({ pw with elo := (celo pw.elo pl.elo).1, wins := pw.wins + 1 })
      ({ pl with elo := (celo pw.elo pl.elo).2, losses := pl.losses + 1 })
      hfm hfw2 hfl2]
  dsimp only
  rw [players_roundtrip s.players w l
      (celo pw.elo pl.elo).1 (celo pw.elo pl.elo).2 pw pl hwl hfw hfl]
  rw [removeFirst_append_last (fun x => x.id == s.next_match_id) _ (by simp) s.matches
      (fun x hx => by rw [beq_eq_false_iff_ne]; have := hinv x hx; omega)]

/-- Peeling one id off the batch of fresh primary keys. -/
theorem newMatchIds_succ (s s' : DBState) (k : Nat)
    (h : s'.next_match_id = s.next_match_id + 1) :
    newMatchIds s (k + 1) = s.next_match_id :: newMatchIds s' k := by
  unfold newMatchIds
  rw [List.range_succ_eq_map, List.map_cons, List.map_map]
  congr 1
  · norm_num
  · rw [h]
    apply List.map_congr_left
    intro a _
    show s.next_match_id + ((Nat.succ a : Nat) : Int) = s.next_match_id + 1 + (a : Int)
    push_cast
    ring

/-- What a successful `log_match` preserves: the id column of the player
table, the counter bump, and the primary-key invariant. -/
theorem log_match_preserves (celo : Int → Int → Int × Int) (w l : Int) (sc : String)
    (s : DBState)
    (hwl : w ≠ l) (hw : w ∈ playerIds s) (hl : l ∈ playerIds s)
    (hinv : MatchIdsBelow s) :
    playerIds (log_match celo w l sc s).1 = playerIds s ∧
    (log_match celo w l sc s).1.next_match_id = s.next_match_id + 1 ∧
    MatchIdsBelow (log_match celo w l sc s).1 := by
  obtain ⟨pw, hfw, hpwid⟩ := mem_playerIds_find? s w hw
  obtain ⟨pl, hfl, hplid⟩ := mem_playerIds_find? s l hl
  rw [log_match_success celo w l sc s pw pl hwl hfw hfl]
  refine ⟨?_, rfl, ?_⟩
  · show (updateFirst (fun p : Player => p.id == l)
        (fun p : Player => { p with elo := (celo pw.elo pl.elo).2, losses := p.losses + 1 })
        (updateFirst (fun p : Player => p.id == w)
          (fun p : Player => { p with elo := (celo pw.elo pl.elo).1, wins := p.wins + 1 })
          s.players)).map (fun p => p.id) = s.players.map (fun p => p.id)
    rw [updateFirst_map (fun p : Player => p.id == l)
        (fun p : Player => { p with elo := (celo pw.elo pl.elo).2, losses := p.losses + 1 })
        (fun p => p.id) (fun x => rfl),
        updateFirst_map (fun p : Player => p.id == w)
        (fun p : Player => { p with elo := (celo pw.elo pl.elo).1, wins := p.wins + 1 })
        (fun p => p.id) (fun x => rfl)]
  · intro m hm
    rcases List.mem_append.mp hm with h | h
    · have := hinv m h
      show m.id < s.next_match_id + 1
      omega
    · have hmeq : m =
          ({ id := s.next_match_id, winner_id := w, loser_id := l, score := sc,
             winner_pre_elo := pw.elo, loser_pre_elo := pl.elo,
             winner_post_elo := (celo pw.elo pl.elo).1,
             loser_post_elo := (celo pw.elo pl.elo).2 } : Match) := by
        simpa using h
      rw [hmeq]
      show s.next_match_id < s.next_match_id + 1
      omega

/-- Logging a batch of valid league matches and then removing them in
reverse id order is the identity on the whole database except for the
advanced primary-key counter. -/
theorem removeMatches_applyLogs (celo : Int → Int → Int × Int) :
    ∀ (ops : List LogOp) (s : DBState), MatchIdsBelow s → ValidOps ops s →
      removeMatches ((newMatchIds s ops.length).reverse) (applyLogs celo ops s)
        = { s with next_match_id := s.next_match_id + (ops.length : Int) }
  | [], s, hinv, hval => by
    show s = { s with next_match_id := s.next_match_id + ((0 : Nat) : Int) }
    simp
  | op :: ops, s, hinv, hval => by
    obtain ⟨hwl, hw, hl⟩ := hval op (List.mem_cons_self op ops)
    have hpres := log_match_preserves celo op.winner op.loser op.score s hwl hw hl hinv
    have hval' : ValidOps ops (log_match celo op.winner op.loser op.score s).1 := by
      intro o ho
      obtain ⟨h1, h2, h3⟩ := hval o (List.mem_cons_of_mem op ho)
      rw [hpres.1]
      exact ⟨h1, h2, h3⟩
    have ih := removeMatches_applyLogs celo ops
      (log_match celo op.winner op.loser op.score s).1 hpres.2.2 hval'
    have hids : (newMatchIds s (op :: ops).length).reverse
        = (newMatchIds (log_match celo op.winner op.loser op.score s).1 ops.length).reverse
          ++ [s.next_match_id] := by
      rw [show (op :: ops).length = ops.length + 1 from rfl,
          newMatchIds_succ s (log_match celo op.winner op.loser op.score s).1 ops.length
            hpres.2.1,
          List.reverse_cons]
    rw [hids, removeMatches_append,
        show applyLogs celo (op :: ops) s
          = applyLogs celo ops (log_match celo op.winner op.loser op.score s).1 from rfl,
        ih]
    show (remove_match s.next_match_id
        { (log_match celo op.winner op.loser op.score s).1 with
          next_match_id := (log_match celo op.winner op.loser op.score s).1.next_match_id
            + (ops.length : Int) }).1
      = { s with next_match_id := s.next_match_id + (((op :: ops).length : Nat) : Int) }
    rw [hpres.2.1]
    rw [remove_log_cancel celo op.winner op.loser op.score s
        (s.next_match_id + 1 + (ops.length : Int)) hwl hw hl hinv]
    have harith : s.next_match_id + 1 + (ops.length : Int)
        = s.next_match_id + (((op :: ops).length : Nat) : Int) := by
      rw [List.length_cons]
      push_cast
      ring
    rw [harith]

theorem remove_log_cancel_single (celo : Int → Int → Int × Int) (w l : Int) (sc : String)
    (s : DBState)
    (hwl : w ≠ l) (hw : w ∈ playerIds s) (hl : l ∈ playerIds s)
    (hinv : MatchIdsBelow s) :
    (remove_match s.next_match_id (log_match celo w l sc s).1).1
      = { s with next_match_id := s.next_match_id + 1 } := by
  obtain ⟨pw, hfw, -⟩ := mem_playerIds_find? s w hw
  obtain ⟨pl, hfl, -⟩ := mem_playerIds_find? s l hl
  have h := remove_log_cancel celo w l sc s (s.next_match_id + 1) hwl hw hl hinv
  have hX : ({ (log_match celo w l sc s).1 with next_match_id := s.next_match_id + 1 }
        : DBState)
      = (log_match celo w l sc s).1 := by
    rw [log_match_success celo w l sc s pw pl hwl hfw hfl]
  rw [hX] at h
  exact h

/-- C8.  Reversal of league matches is exact, for *every* rating
function `celo` (the stored pre/post snapshots drive the reversal;
`remove_match` never calls the rating function): (a) removing the match
that a successful `log_match` just created returns the database to its
previous state — both players' rating, win count and loss count
included — except for the advanced primary-key counter; (b) a batch of
logged matches removed in reverse order restores the whole database the
same way. -/
theorem C8_reversal_exact (celo : Int → Int → Int × Int) (s : DBState)
    (hinv : MatchIdsBelow s) :
    (∀ (w l : Int) (sc : String), w ≠ l → w ∈ playerIds s → l ∈ playerIds s →
      (remove_match s.next_match_id (log_match celo w l sc s).1).1
        = { s with next_match_id := s.next_match_id + 1 }) ∧
    (∀ ops : List LogOp, ValidOps ops s →
      removeMatches ((newMatchIds s ops.length).reverse) (applyLogs celo ops s)
        = { s with next_match_id := s.next_match_id + (ops.length : Int) }) :=
  ⟨fun w l sc hwl hw hl => remove_log_cancel_single celo w l sc s hwl hw hl hinv,
   fun ops hval => removeMatches_applyLogs celo ops s hinv hval⟩

/-- Witness for C8: two matches logged on the three-player league with a
concrete rating function, then removed in reverse order; the database
comes back identical except for the id counter. -/
theorem C8_witness :
    MatchIdsBelow leagueState ∧
    ValidOps [⟨1, 2, "11-9"⟩, ⟨3, 1, "11-4"⟩] leagueState ∧
    removeMatches ((newMatchIds leagueState 2).reverse)
        (applyLogs (fun a b => (a + 16, b - 16)) [⟨1, 2, "11-9"⟩, ⟨3, 1, "11-4"⟩] leagueState)
      = { leagueState with next_match_id := leagueState.next_match_id + ((2 : Nat) : Int) } := by
  refine ⟨?_, ?_, ?_⟩
  · unfold MatchIdsBelow
    decide
  · unfold ValidOps
    decide
  · exact (C8_reversal_exact (fun a b => (a + 16, b - 16)) leagueState
      (by unfold MatchIdsBelow; decide)).2 [⟨1, 2, "11-9"⟩, ⟨3, 1, "11-4"⟩]
      (by unfold ValidOps; decide)

end Pong
